import Mathlib

/-!
# Shallow embedding of the `AnonymousSurvey` contract

This file embeds `src/contracts/AnonymousSurvey.sol` in Lean 4 and proves the
spec's claims about it.

Modelling decisions:
* Addresses and wei amounts are `Nat`; `address(0)` is `0`.  The execution
  environment guarantees `msg.sender ≠ 0`; this appears as a hypothesis on the
  step relation where it matters (survey creation).
* Solidity `mapping(address => bool)` flags with finite support are modelled as
  `Finset Nat` (`hasVoted` is membership in `voted`, `hasWithdrawn` is
  membership in `withdrawn`); `mapping(uint256 => T)` is a function `Nat → T`.
* The ciphertext capability provider (`FHE.*`) is an external collaborator, not
  part of this repository.  Its operations are modelled from the spec on
  plaintext shadows: an `euint32`/`euint8` ciphertext is represented by the
  natural number it encrypts, and `homomorphicAdd` / `homomorphicEquals` /
  `homomorphicSelect` act as exact integer operations (spec section 6).
* An outbound value transfer succeeds exactly when the custodied balance covers
  it; on success it decreases the balance by the amount sent.
* Ghost fields (tracked for specification only, never read by any operation):
  `Survey.settled` records which option indices have had `storeDecryptedVote`
  called, `Survey.initialPool` records the reward pool supplied at creation,
  and `SState.events` records the emitted signals.
-/

namespace AnonymousSurvey

/-- `MIN_OPTIONS` constant of the contract. -/
def MIN_OPTIONS : Nat := 2

/-- `MAX_OPTIONS` constant of the contract. -/
def MAX_OPTIONS : Nat := 10

/-- `MIN_DURATION` constant of the contract (60 seconds). -/
def MIN_DURATION : Nat := 60

/-- `DEFAULT_DEPOSIT` constant of the contract (0.001 ether in wei). -/
def DEFAULT_DEPOSIT : Nat := 1000000000000000

/-- The events the contract can emit. -/
inductive Event where
  | surveyCreated (surveyId creator : Nat) (question : String)
      (optionCount endTime rewardPool depositRequired rewardPerResponse : Nat)
  | responseSubmitted (surveyId voter timestamp depositPaid : Nat)
  | participantWithdrawal (surveyId participant depositReturned rewardPaid totalPaid : Nat)
  | resultsReleased (surveyId timestamp : Nat)
  | decryptionRequested (surveyId optionIndex : Nat)
  | voteDecrypted (surveyId optionIndex voteCount : Nat)
  | rewardPoolWithdrawn (surveyId creator amount : Nat)
  deriving DecidableEq

/-- The revert reasons of the contract.  `transferFailed` and
`insufficientContractBalance` model the two `require` failures in the
withdrawal paths. -/
inductive Err where
  | invalidOptionCount
  | invalidDuration
  | insufficientRewardPool
  | insufficientDeposit
  | surveyNotFound
  | surveyEnded
  | surveyStillActive
  | alreadyVoted
  | invalidOptionIndex
  | resultsNotReleased
  | notCreator
  | notParticipant
  | alreadyWithdrawn
  | rewardPoolEmpty
  | transferFailed
  | insufficientContractBalance
  deriving DecidableEq

/-- The `Survey` struct.  `encryptedVotes` holds the plaintext shadows of the
per-option ciphertext counters; `voted` and `withdrawn` are the supports of the
`hasVoted` and `hasWithdrawn` mappings; `settled` and `initialPool` are ghost
fields (see the file header). -/
structure Survey where
  creator : Nat
  question : String
  options : List String
  endTime : Nat
  rewardPool : Nat
  depositRequired : Nat
  rewardPerResponse : Nat
  totalResponses : Nat
  isActive : Bool
  resultsReleased : Bool
  encryptedVotes : Nat → Nat
  decryptedVotes : Nat → Nat
  settled : Nat → Bool
  voted : Finset Nat
  withdrawn : Finset Nat
  initialPool : Nat

/-- The all-zero `Survey` value a Solidity mapping returns for an absent key. -/
def emptySurvey : Survey where
  creator := 0
  question := ""
  options := []
  endTime := 0
  rewardPool := 0
  depositRequired := 0
  rewardPerResponse := 0
  totalResponses := 0
  isActive := false
  resultsReleased := false
  encryptedVotes := fun _ => 0
  decryptedVotes := fun _ => 0
  settled := fun _ => false
  voted := ∅
  withdrawn := ∅
  initialPool := 0

/-- `hasVoted` mapping of the contract, as a predicate on the support set. -/
def Survey.hasVoted (sv : Survey) (a : Nat) : Prop := a ∈ sv.voted

/-- `hasWithdrawn` mapping of the contract, as a predicate on the support set. -/
def Survey.hasWithdrawn (sv : Survey) (a : Nat) : Prop := a ∈ sv.withdrawn

/-- The full ledger state: the contract's storage (`surveyCount`, `surveys`),
its custodied ETH balance, the current block timestamp, and the ghost event
log. -/
structure SState where
  surveyCount : Nat
  surveys : Nat → Survey
  balance : Nat
  now : Nat
  events : List Event

/-- The state right after deployment: no surveys, no funds. -/
def initialState : SState where
  surveyCount := 0
  surveys := fun _ => emptySurvey
  balance := 0
  now := 0
  events := []

/-- Modelled from the spec: `homomorphicEquals` of the external ciphertext
capability provider (`FHE.eq`), acting on plaintext shadows. -/
def fheEq (a b : Nat) : Bool := a == b

/-- Modelled from the spec: `homomorphicSelect` of the external ciphertext
capability provider (`FHE.select`), acting on plaintext shadows. -/
def fheSelect (c : Bool) (a b : Nat) : Nat := if c then a else b

/-- Modelled from the spec: `homomorphicAdd` of the external ciphertext
capability provider (`FHE.add`), acting on plaintext shadows. -/
def fheAdd (a b : Nat) : Nat := a + b

/-- Modelled from the spec: `encryptConstant` of the external ciphertext
capability provider (`FHE.asEuint32` / `FHE.asEuint8`), acting on plaintext
shadows. -/
def fheConst (n : Nat) : Nat := n

/-- The per-option homomorphic sweep of `submitResponse`: for every option
index `i` in `0..n`, test the encrypted choice against the constant `i`,
select `1` if equal else `0`, and add the selection into the counter of
option `i`. -/
def tallySweep (votes : Nat → Nat) (choice : Nat) : Nat → (Nat → Nat)
  | 0 => votes
  | n + 1 =>
    let v := tallySweep votes choice n
    fun j => if j = n then fheAdd (v n) (fheSelect (fheEq choice n) (fheConst 1) (fheConst 0)) else v j

/-- The deposit requirement actually recorded at creation: the fixed default
when the argument is zero. -/
def defaultedDeposit (dep : Nat) : Nat := if dep = 0 then DEFAULT_DEPOSIT else dep

/-- The fresh `Survey` record written by `createSurvey`. -/
def newSurvey (caller value : Nat) (question : String) (options : List String)
    (endT dep rpr : Nat) : Survey where
  creator := caller
  question := question
  options := options
  endTime := endT
  rewardPool := value
  depositRequired := dep
  rewardPerResponse := rpr
  totalResponses := 0
  isActive := true
  resultsReleased := false
  encryptedVotes := fun _ => 0
  decryptedVotes := fun _ => 0
  settled := fun _ => false
  voted := ∅
  withdrawn := ∅
  initialPool := value

/-- The post-state of a successful `createSurvey`. -/
def createResult (σ : SState) (caller value : Nat) (question : String)
    (options : List String) (durationInSeconds dep rpr : Nat) : SState :=
  { σ with
    surveyCount := σ.surveyCount + 1
    surveys := Function.update σ.surveys σ.surveyCount
      (newSurvey caller value question options (σ.now + durationInSeconds)
        (defaultedDeposit dep) rpr)
    balance := σ.balance + value
    events := σ.events ++ [Event.surveyCreated σ.surveyCount caller question
      options.length (σ.now + durationInSeconds) value (defaultedDeposit dep) rpr] }

/-- `createSurvey(question, options, durationInSeconds, depositRequired,
rewardPerResponse)` with `msg.sender = caller` and `msg.value = value`.
Returns the new state together with the returned `surveyId`. -/
def createSurvey (σ : SState) (caller value : Nat) (question : String)
    (options : List String) (durationInSeconds depositRequired rewardPerResponse : Nat) :
    Except Err (SState × Nat) :=
  if options.length < MIN_OPTIONS ∨ MAX_OPTIONS < options.length then
    .error .invalidOptionCount
  else if durationInSeconds < MIN_DURATION then
    .error .invalidDuration
  else if value = 0 then
    .error .insufficientRewardPool
  else if rewardPerResponse = 0 ∨ value < rewardPerResponse then
    .error .insufficientRewardPool
  else
    .ok (createResult σ caller value question options durationInSeconds
          depositRequired rewardPerResponse, σ.surveyCount)

/-- The post-state of a successful `submitResponse`. -/
def submitResult (σ : SState) (caller value surveyId choice : Nat) : SState :=
  let survey := σ.surveys surveyId
  { σ with
    surveys := Function.update σ.surveys surveyId
      { survey with
        encryptedVotes := tallySweep survey.encryptedVotes choice survey.options.length
        voted := insert caller survey.voted
        totalResponses := survey.totalResponses + 1 }
    balance := σ.balance + value
    events := σ.events ++ [Event.responseSubmitted surveyId caller σ.now value] }

/-- `submitResponse(surveyId, encryptedOptionIndex, inputProof)` with
`msg.sender = caller`, `msg.value = value`, and `choice` the plaintext shadow
of the (proof-checked) encrypted option index. -/
def submitResponse (σ : SState) (caller value surveyId choice : Nat) :
    Except Err SState :=
  let survey := σ.surveys surveyId
  if survey.creator = 0 then .error .surveyNotFound
  else if survey.endTime ≤ σ.now then .error .surveyEnded
  else if survey.isActive = false then .error .surveyEnded
  else if caller ∈ survey.voted then .error .alreadyVoted
  else if value < survey.depositRequired then .error .insufficientDeposit
  else .ok (submitResult σ caller value surveyId choice)

/-- `depositRequired + rewardPerResponse`: the single-transfer payout of
`withdrawParticipantFunds`. -/
def participantPayout (sv : Survey) : Nat := sv.depositRequired + sv.rewardPerResponse

/-- The state at the moment `withdrawParticipantFunds` performs its outbound
transfer: the caller is already marked withdrawn (reentrancy guard), the
balance is not yet debited. -/
def withdrawMarkResult (σ : SState) (caller surveyId : Nat) : SState :=
  let survey := σ.surveys surveyId
  { σ with
    surveys := Function.update σ.surveys surveyId
      { survey with withdrawn := insert caller survey.withdrawn } }

/-- `withdrawParticipantFunds(surveyId)` with `msg.sender = caller`. -/
def withdrawParticipantFunds (σ : SState) (caller surveyId : Nat) :
    Except Err SState :=
  let survey := σ.surveys surveyId
  if survey.creator = 0 then .error .surveyNotFound
  else if caller ∉ survey.voted then .error .notParticipant
  else if caller ∈ survey.withdrawn then .error .alreadyWithdrawn
  else
    let σ1 := withdrawMarkResult σ caller surveyId
    let totalPayout := participantPayout survey
    if σ1.balance < totalPayout then .error .insufficientContractBalance
    else .ok { σ1 with
      balance := σ1.balance - totalPayout
      events := σ1.events ++ [Event.participantWithdrawal surveyId caller
        survey.depositRequired survey.rewardPerResponse totalPayout] }

/-- The post-state of a successful `releaseAndRequestDecrypt`: the first call
performs the released transition and emits the one-time released signal; every
call emits the decryption-request signal. -/
def releaseResult (σ : SState) (surveyId optionIndex : Nat) : SState :=
  let survey := σ.surveys surveyId
  if survey.resultsReleased then
    { σ with events := σ.events ++ [Event.decryptionRequested surveyId optionIndex] }
  else
    { σ with
      surveys := Function.update σ.surveys surveyId
        { survey with resultsReleased := true, isActive := false }
      events := σ.events ++ [Event.resultsReleased surveyId σ.now,
        Event.decryptionRequested surveyId optionIndex] }

/-- `releaseAndRequestDecrypt(surveyId, optionIndex)`.  The caller is only used
for an external access grant (`FHE.allow`), which leaves the ledger state
untouched, so it does not appear. -/
def releaseAndRequestDecrypt (σ : SState) (caller surveyId optionIndex : Nat) :
    Except Err SState :=
  let survey := σ.surveys surveyId
  let _ := caller
  if survey.creator = 0 then .error .surveyNotFound
  else if σ.now < survey.endTime then .error .surveyStillActive
  else if survey.options.length ≤ optionIndex then .error .invalidOptionIndex
  else .ok (releaseResult σ surveyId optionIndex)

/-- The post-state of a successful `storeDecryptedVote`. -/
def storeResult (σ : SState) (surveyId optionIndex value : Nat) : SState :=
  let survey := σ.surveys surveyId
  { σ with
    surveys := Function.update σ.surveys surveyId
      { survey with
        decryptedVotes := Function.update survey.decryptedVotes optionIndex value
        settled := Function.update survey.settled optionIndex true }
    events := σ.events ++ [Event.voteDecrypted surveyId optionIndex value] }

/-- `storeDecryptedVote(surveyId, optionIndex, decryptedVote)`.  Callable by
anyone; the supplied plaintext is stored unverified. -/
def storeDecryptedVote (σ : SState) (surveyId optionIndex value : Nat) :
    Except Err SState :=
  let survey := σ.surveys surveyId
  if survey.resultsReleased = false then .error .resultsNotReleased
  else if survey.options.length ≤ optionIndex then .error .invalidOptionIndex
  else .ok (storeResult σ surveyId optionIndex value)

/-- `withdrawRewardPool(surveyId)` with `msg.sender = caller`.  The reward pool
is zeroed before the outbound transfer. -/
def withdrawRewardPool (σ : SState) (caller surveyId : Nat) :
    Except Err SState :=
  let survey := σ.surveys surveyId
  if survey.creator = 0 then .error .surveyNotFound
  else if caller ≠ survey.creator then .error .notCreator
  else if σ.now < survey.endTime then .error .surveyStillActive
  else if survey.rewardPool = 0 then .error .rewardPoolEmpty
  else
    let totalRewardsAllocated := survey.totalResponses * survey.rewardPerResponse
    let remaining := if totalRewardsAllocated < survey.rewardPool
      then survey.rewardPool - totalRewardsAllocated else 0
    let σ1 := { σ with
      surveys := Function.update σ.surveys surveyId { survey with rewardPool := 0 } }
    if 0 < remaining then
      if σ1.balance < remaining then .error .transferFailed
      else .ok { σ1 with
        balance := σ1.balance - remaining
        events := σ1.events ++ [Event.rewardPoolWithdrawn surveyId survey.creator remaining] }
    else .ok { σ1 with
      events := σ1.events ++ [Event.rewardPoolWithdrawn surveyId survey.creator remaining] }

/-- `getSurveyStatistics(surveyId)`: basis-point percentage per option, all
zeros when there are no responses. -/
def getSurveyStatistics (σ : SState) (surveyId : Nat) : Except Err (List Nat) :=
  let survey := σ.surveys surveyId
  if survey.resultsReleased = false then .error .resultsNotReleased
  else if survey.totalResponses = 0 then .ok (List.replicate survey.options.length 0)
  else .ok ((List.range survey.options.length).map
    (fun i => survey.decryptedVotes i * 10000 / survey.totalResponses))

/-- One transaction of the ledger.  `create` carries the environment guarantee
`msg.sender ≠ 0`; `submit` carries the 8-bit range of a well-formed `euint8`
input; `store` carries the 32-bit range of the `uint32` calldata argument.
`receiveEth` is the contract's `receive()` function; `tick` advances the block
timestamp. -/
inductive Step : SState → SState → Prop where
  | create (σ : SState) (caller value : Nat) (question : String)
      (options : List String) (dur dep rpr : Nat) (σ' : SState) (surveyId : Nat)
      (hc : caller ≠ 0)
      (h : createSurvey σ caller value question options dur dep rpr = .ok (σ', surveyId)) :
      Step σ σ'
  | submit (σ : SState) (caller value surveyId choice : Nat) (σ' : SState)
      (hch : choice < 256)
      (h : submitResponse σ caller value surveyId choice = .ok σ') : Step σ σ'
  | withdrawP (σ : SState) (caller surveyId : Nat) (σ' : SState)
      (h : withdrawParticipantFunds σ caller surveyId = .ok σ') : Step σ σ'
  | release (σ : SState) (caller surveyId optionIndex : Nat) (σ' : SState)
      (h : releaseAndRequestDecrypt σ caller surveyId optionIndex = .ok σ') : Step σ σ'
  | store (σ : SState) (surveyId optionIndex value : Nat) (σ' : SState)
      (hv : value < 2 ^ 32)
      (h : storeDecryptedVote σ surveyId optionIndex value = .ok σ') : Step σ σ'
  | withdrawR (σ : SState) (caller surveyId : Nat) (σ' : SState)
      (h : withdrawRewardPool σ caller surveyId = .ok σ') : Step σ σ'
  | receiveEth (σ : SState) (value : Nat) : Step σ { σ with balance := σ.balance + value }
  | tick (σ : SState) (δ : Nat) : Step σ { σ with now := σ.now + δ }

/-- Reachable ledger states: everything the deployed contract can evolve into. -/
inductive Reachable : SState → Prop where
  | init : Reachable initialState
  | step {σ σ' : SState} : Reachable σ → Step σ σ' → Reachable σ'

/-- Like `Step`, but a submitted choice is additionally required to be a valid
option index of its survey (an honest participant).  Used only to state the
amended tally-conservation claim. -/
inductive StepV : SState → SState → Prop where
  | create (σ : SState) (caller value : Nat) (question : String)
      (options : List String) (dur dep rpr : Nat) (σ' : SState) (surveyId : Nat)
      (hc : caller ≠ 0)
      (h : createSurvey σ caller value question options dur dep rpr = .ok (σ', surveyId)) :
      StepV σ σ'
  | submit (σ : SState) (caller value surveyId choice : Nat) (σ' : SState)
      (hch : choice < (σ.surveys surveyId).options.length)
      (h : submitResponse σ caller value surveyId choice = .ok σ') : StepV σ σ'
  | withdrawP (σ : SState) (caller surveyId : Nat) (σ' : SState)
      (h : withdrawParticipantFunds σ caller surveyId = .ok σ') : StepV σ σ'
  | release (σ : SState) (caller surveyId optionIndex : Nat) (σ' : SState)
      (h : releaseAndRequestDecrypt σ caller surveyId optionIndex = .ok σ') : StepV σ σ'
  | store (σ : SState) (surveyId optionIndex value : Nat) (σ' : SState)
      (hv : value < 2 ^ 32)
      (h : storeDecryptedVote σ surveyId optionIndex value = .ok σ') : StepV σ σ'
  | withdrawR (σ : SState) (caller surveyId : Nat) (σ' : SState)
      (h : withdrawRewardPool σ caller surveyId = .ok σ') : StepV σ σ'
  | receiveEth (σ : SState) (value : Nat) : StepV σ { σ with balance := σ.balance + value }
  | tick (σ : SState) (δ : Nat) : StepV σ { σ with now := σ.now + δ }

/-- States reachable when every participant submits a valid option index. -/
inductive ReachableV : SState → Prop where
  | init : ReachableV initialState
  | step {σ σ' : SState} : ReachableV σ → StepV σ σ' → ReachableV σ'

/-- The sum of unwithdrawn participant entitlements of one survey:
`depositRequired + rewardPerResponse` for every participant with `hasVoted`
true and `hasWithdrawn` false. -/
def participantEntitlement (sv : Survey) : Nat :=
  (sv.voted \ sv.withdrawn).card * (sv.depositRequired + sv.rewardPerResponse)

/-- The remaining creator entitlement of one survey:
`max(rewardPool - totalResponses * rewardPerResponse, 0)` while the pool has
not been zeroed, `0` afterwards. -/
def creatorEntitlement (sv : Survey) : Nat :=
  if sv.rewardPool = 0 then 0
  else sv.rewardPool - sv.totalResponses * sv.rewardPerResponse

/-- Total entitlement carried by one survey. -/
def perSurveyEntitlement (sv : Survey) : Nat :=
  participantEntitlement sv + creatorEntitlement sv

/-- Sum of all entitlements over all surveys in the ledger. -/
def entitlements (σ : SState) : Nat :=
  (Finset.range σ.surveyCount).sum fun i => perSurveyEntitlement (σ.surveys i)

/-- How far one survey has over-promised rewards beyond the pool supplied at
creation: `max(totalResponses * rewardPerResponse - initialPool, 0)`. -/
def shortfall (sv : Survey) : Nat :=
  sv.totalResponses * sv.rewardPerResponse - sv.initialPool

/-- Total reward shortfall over all surveys. -/
def shortfallTotal (σ : SState) : Nat :=
  (Finset.range σ.surveyCount).sum fun i => shortfall (σ.surveys i)

/-- Whether an event is the one-time released signal of the given survey. -/
def isReleasedSignal (id : Nat) : Event → Bool
  | Event.resultsReleased i _ => i == id
  | _ => false

/-- How many times the released signal of the given survey occurs in the log. -/
def countReleased (id : Nat) (evs : List Event) : Nat :=
  (evs.filter (isReleasedSignal id)).length

/-- Sum of the plaintext shadows of a survey's encrypted per-option counters. -/
def tallySum (sv : Survey) : Nat :=
  (Finset.range sv.options.length).sum sv.encryptedVotes

/-- Sum of a survey's stored decrypted per-option counts. -/
def decryptedSum (sv : Survey) : Nat :=
  (Finset.range sv.options.length).sum sv.decryptedVotes

/-- Binary relation used to state that an excess attached payment stays in the
custodied balance forever: both states agree on everything an operation reads
except that the first holds `e` more wei. -/
def BalOffset (e : Nat) (σ1 σ2 : SState) : Prop :=
  σ1.surveyCount = σ2.surveyCount ∧ σ1.surveys = σ2.surveys ∧
    σ1.now = σ2.now ∧ σ1.balance = σ2.balance + e

/-!
## Concrete executions

A survey funded with a 10 wei pool paying 7 wei per response and requiring a
1 wei deposit.  Two participants vote, which over-allocates the pool
(14 wei promised out of 10) — the trace behind several counterexamples.
-/

/-- The state a ledger call produced, or a fallback when it reverted. -/
def okState (r : Except Err SState) (d : SState) : SState :=
  match r with
  | .ok s => s
  | .error _ => d

/-- Creator 1 opens survey 0 at time 0: pool 10, duration 60, deposit 1,
reward per response 7. -/
def st1 : SState :=
  match createSurvey initialState 1 10 "q" ["a", "b"] 60 1 7 with
  | .ok (s, _) => s
  | .error _ => initialState

/-- Participant 2 votes for option 0 with a 1 wei deposit. -/
def st2 : SState := okState (submitResponse st1 2 1 0 0) st1

/-- Participant 3 votes for option 1 with a 1 wei deposit. -/
def st3 : SState := okState (submitResponse st2 3 1 0 1) st2

/-- Participant 2 withdraws deposit + reward (8 wei), leaving 4 wei. -/
def st4 : SState := okState (withdrawParticipantFunds st3 2 0) st3

/-- Time advances to the survey's end time. -/
def st5 : SState := { st3 with now := st3.now + 60 }

/-- Caller 9 (neither creator nor voter) triggers the release for option 0. -/
def st7 : SState := okState (releaseAndRequestDecrypt st5 9 0 0) st5

/-- An adversary stores a bogus decrypted count of 5 for option 0. -/
def st8 : SState := okState (storeDecryptedVote st7 0 0 5) st7

/-- The adversary stores a bogus decrypted count of 9 for option 1. -/
def st9 : SState := okState (storeDecryptedVote st8 0 1 9) st8

/-- Honest settlement of option 0: its counter's plaintext is 1. -/
def stH1 : SState := okState (storeDecryptedVote st7 0 0 1) st7

/-- Honest settlement of option 1: its counter's plaintext is 1. -/
def stH2 : SState := okState (storeDecryptedVote stH1 0 1 1) stH1

/-- Survey 0 right after its end time with no responses. -/
def stC : SState := { st1 with now := st1.now + 60 }

/-- The creator reclaims the whole 10 wei pool of the empty survey. -/
def stCW : SState := okState (withdrawRewardPool stC 1 0) stC

/-- A released survey with 3 options, 10 responses and decrypted counts
`[3, 5, 2]`, used to evaluate the statistics read. -/
def svStat : Survey :=
  { emptySurvey with
    creator := 1
    options := ["a", "b", "c"]
    totalResponses := 10
    resultsReleased := true
    decryptedVotes := fun i => if i = 0 then 3 else if i = 1 then 5 else if i = 2 then 2 else 0 }

/-- A ledger state holding `svStat` as survey 0. -/
def stStat : SState :=
  { initialState with surveyCount := 1, surveys := Function.update initialState.surveys 0 svStat }

/-!
## Characterization of the operations
-/

theorem createSurvey_intro {σ : SState} {caller value : Nat} {question : String}
    {options : List String} {dur dep rpr : Nat}
    (h1 : MIN_OPTIONS ≤ options.length) (h2 : options.length ≤ MAX_OPTIONS)
    (h3 : MIN_DURATION ≤ dur) (h4 : value ≠ 0) (h5 : rpr ≠ 0) (h6 : rpr ≤ value) :
    createSurvey σ caller value question options dur dep rpr =
      .ok (createResult σ caller value question options dur dep rpr, σ.surveyCount) := by
  unfold createSurvey
  rw [if_neg (by omega), if_neg (by omega), if_neg h4, if_neg (by omega)]

theorem createSurvey_dest {σ : SState} {caller value : Nat} {question : String}
    {options : List String} {dur dep rpr : Nat} {σ' : SState} {sid : Nat}
    (h : createSurvey σ caller value question options dur dep rpr = .ok (σ', sid)) :
    MIN_OPTIONS ≤ options.length ∧ options.length ≤ MAX_OPTIONS ∧
      MIN_DURATION ≤ dur ∧ value ≠ 0 ∧ rpr ≠ 0 ∧ rpr ≤ value ∧
      σ' = createResult σ caller value question options dur dep rpr ∧
      sid = σ.surveyCount := by
  unfold createSurvey at h
  split_ifs at h with h1 h2 h3 h4 <;>
    simp_all [Nat.not_le, Nat.not_lt, not_or]

theorem submitResponse_ok {σ : SState} {caller value surveyId choice : Nat} {σ' : SState} :
    submitResponse σ caller value surveyId choice = .ok σ' ↔
      ((σ.surveys surveyId).creator ≠ 0 ∧
        σ.now < (σ.surveys surveyId).endTime ∧
        (σ.surveys surveyId).isActive = true ∧
        caller ∉ (σ.surveys surveyId).voted ∧
        (σ.surveys surveyId).depositRequired ≤ value ∧
        σ' = submitResult σ caller value surveyId choice) := by
  unfold submitResponse
  simp only []
  split_ifs with h1 h2 h3 h4 h5 <;>
    simp_all [Nat.not_le, Nat.not_lt] <;>
    exact eq_comm

theorem submitResponse_err {σ : SState} {caller value surveyId choice : Nat} :
    (∃ e, submitResponse σ caller value surveyId choice = .error e) ↔
      ((σ.surveys surveyId).creator = 0 ∨
        (σ.surveys surveyId).endTime ≤ σ.now ∨
        (σ.surveys surveyId).isActive = false ∨
        caller ∈ (σ.surveys surveyId).voted ∨
        value < (σ.surveys surveyId).depositRequired) := by
  unfold submitResponse
  simp only []
  split_ifs with h1 h2 h3 h4 h5 <;> simp_all [Nat.not_le, Nat.not_lt]

theorem withdrawParticipantFunds_ok {σ : SState} {caller surveyId : Nat} {σ' : SState} :
    withdrawParticipantFunds σ caller surveyId = .ok σ' ↔
      ((σ.surveys surveyId).creator ≠ 0 ∧
        caller ∈ (σ.surveys surveyId).voted ∧
        caller ∉ (σ.surveys surveyId).withdrawn ∧
        participantPayout (σ.surveys surveyId) ≤ σ.balance ∧
        σ' = { withdrawMarkResult σ caller surveyId with
          balance := σ.balance - participantPayout (σ.surveys surveyId)
          events := σ.events ++ [Event.participantWithdrawal surveyId caller
            (σ.surveys surveyId).depositRequired (σ.surveys surveyId).rewardPerResponse
            (participantPayout (σ.surveys surveyId))] }) := by
  unfold withdrawParticipantFunds
  simp only []
  split_ifs with h1 h2 h3 h4 <;>
    simp_all [withdrawMarkResult, participantPayout, Nat.not_le, Nat.not_lt] <;>
    exact eq_comm

theorem releaseAndRequestDecrypt_ok {σ : SState} {caller surveyId optionIndex : Nat}
    {σ' : SState} :
    releaseAndRequestDecrypt σ caller surveyId optionIndex = .ok σ' ↔
      ((σ.surveys surveyId).creator ≠ 0 ∧
        (σ.surveys surveyId).endTime ≤ σ.now ∧
        optionIndex < (σ.surveys surveyId).options.length ∧
        σ' = releaseResult σ surveyId optionIndex) := by
  unfold releaseAndRequestDecrypt
  simp only []
  split_ifs with h1 h2 h3 <;>
    simp_all [Nat.not_le, Nat.not_lt] <;>
    exact eq_comm

theorem storeDecryptedVote_ok {σ : SState} {surveyId optionIndex value : Nat}
    {σ' : SState} :
    storeDecryptedVote σ surveyId optionIndex value = .ok σ' ↔
      ((σ.surveys surveyId).resultsReleased = true ∧
        optionIndex < (σ.surveys surveyId).options.length ∧
        σ' = storeResult σ surveyId optionIndex value) := by
  unfold storeDecryptedVote
  simp only []
  split_ifs with h1 h2 <;>
    simp_all [Nat.not_le, Nat.not_lt] <;>
    exact eq_comm

theorem withdrawRewardPool_dest {σ : SState} {caller surveyId : Nat} {σ' : SState}
    (h : withdrawRewardPool σ caller surveyId = .ok σ') :
    (σ.surveys surveyId).creator ≠ 0 ∧
      caller = (σ.surveys surveyId).creator ∧
      (σ.surveys surveyId).endTime ≤ σ.now ∧
      (σ.surveys surveyId).rewardPool ≠ 0 ∧
      ((σ.surveys surveyId).rewardPool - (σ.surveys surveyId).totalResponses *
        (σ.surveys surveyId).rewardPerResponse ≤ σ.balance) ∧
      σ' = { σ with
        surveys := Function.update σ.surveys surveyId
          { σ.surveys surveyId with rewardPool := 0 }
        balance := σ.balance - ((σ.surveys surveyId).rewardPool -
          (σ.surveys surveyId).totalResponses * (σ.surveys surveyId).rewardPerResponse)
        events := σ.events ++ [Event.rewardPoolWithdrawn surveyId
          (σ.surveys surveyId).creator ((σ.surveys surveyId).rewardPool -
            (σ.surveys surveyId).totalResponses * (σ.surveys surveyId).rewardPerResponse)] } := by
  unfold withdrawRewardPool at h
  simp only [] at h
  split_ifs at h with h1 h2 h3 h4 h5 h6 h7 <;>
    simp_all [Nat.not_le, Nat.not_lt]

/-!
## Sum bookkeeping lemmas
-/

theorem sum_range_update {n id : Nat} (h : id < n) (f : Nat → Nat) (a : Nat) :
    ((Finset.range n).sum fun i => Function.update f id a i) + f id
      = (Finset.range n).sum f + a := by
  have hid : id ∈ Finset.range n := Finset.mem_range.mpr h
  rw [Finset.sum_update_of_mem hid, ← Finset.erase_eq,
    ← Finset.add_sum_erase _ f hid]
  ring

theorem comp_update (f : Nat → Survey) (g : Survey → Nat) (id : Nat) (sv : Survey) :
    (fun i => g (Function.update f id sv i))
      = Function.update (fun i => g (f i)) id (g sv) := by
  funext i
  by_cases h : i = id <;> simp [Function.update, h]

theorem sum_range_update_out {n id : Nat} (h : n ≤ id) (f : Nat → Nat) (a : Nat) :
    ((Finset.range n).sum fun i => Function.update f id a i)
      = (Finset.range n).sum f := by
  apply Finset.sum_update_of_not_mem
  simp [Nat.not_lt.mpr h]

/-!
## The homomorphic sweep
-/

theorem tallySweep_at (votes : Nat → Nat) (choice n j : Nat) :
    tallySweep votes choice n j =
      votes j + (if j < n ∧ choice = j then 1 else 0) := by
  induction n with
  | zero => simp [tallySweep]
  | succ m ih =>
    by_cases hj : j = m
    · subst hj
      have hmm : ¬(j < j ∧ choice = j) := by omega
      simp only [tallySweep, if_pos rfl, ih, if_neg hmm, fheAdd, fheSelect, fheEq, fheConst]
      by_cases hc : choice = j <;> simp [hc]
    · have hiff : (j < m ∧ choice = j) ↔ (j < m + 1 ∧ choice = j) := by
        constructor <;> rintro ⟨ha, hb⟩ <;> exact ⟨by omega, hb⟩
      simp only [tallySweep, if_neg hj, ih]
      rw [if_congr hiff rfl rfl]

theorem tallySweep_sum (votes : Nat → Nat) (choice n : Nat) :
    (Finset.range n).sum (tallySweep votes choice n)
      = (Finset.range n).sum votes + (if choice < n then 1 else 0) := by
  have h1 : ((Finset.range n).sum fun j => tallySweep votes choice n j)
      = (Finset.range n).sum fun j => votes j + (if j < n ∧ choice = j then 1 else 0) := by
    apply Finset.sum_congr rfl
    intro j _
    exact tallySweep_at votes choice n j
  rw [h1, Finset.sum_add_distrib]
  congr 1
  have h2 : ((Finset.range n).sum fun j => if j < n ∧ choice = j then 1 else 0)
      = (Finset.range n).sum fun j => if choice = j then 1 else 0 := by
    apply Finset.sum_congr rfl
    intro j hj
    simp [Finset.mem_range.mp hj]
  rw [h2]
  simp [Finset.sum_ite_eq, Finset.mem_range]

/-!
## Event log counting
-/

theorem countReleased_append (id : Nat) (evs l : List Event) :
    countReleased id (evs ++ l) = countReleased id evs + countReleased id l := by
  simp [countReleased, List.filter_append]

theorem countReleased_created (id sid caller : Nat) (q : String) (a b c d e : Nat) :
    countReleased id [Event.surveyCreated sid caller q a b c d e] = 0 := by
  simp [countReleased, isReleasedSignal]

theorem countReleased_submitted (id sid voter t v : Nat) :
    countReleased id [Event.responseSubmitted sid voter t v] = 0 := by
  simp [countReleased, isReleasedSignal]

theorem countReleased_pwithdraw (id sid p a b c : Nat) :
    countReleased id [Event.participantWithdrawal sid p a b c] = 0 := by
  simp [countReleased, isReleasedSignal]

theorem countReleased_decReq (id sid idx : Nat) :
    countReleased id [Event.decryptionRequested sid idx] = 0 := by
  simp [countReleased, isReleasedSignal]

theorem countReleased_voteDec (id sid idx v : Nat) :
    countReleased id [Event.voteDecrypted sid idx v] = 0 := by
  simp [countReleased, isReleasedSignal]

theorem countReleased_rwithdraw (id sid cr amt : Nat) :
    countReleased id [Event.rewardPoolWithdrawn sid cr amt] = 0 := by
  simp [countReleased, isReleasedSignal]

theorem countReleased_released (id sid t : Nat) :
    countReleased id [Event.resultsReleased sid t] = if sid = id then 1 else 0 := by
  by_cases h : sid = id <;> simp [countReleased, isReleasedSignal, h]

/-!
## Per-survey sum manipulation
-/

theorem sumSurveys_update {σ σ' : SState} (f : Survey → Nat) {id : Nat}
    (h : id < σ.surveyCount) {sv : Survey}
    (hs : σ'.surveys = Function.update σ.surveys id sv)
    (hc : σ'.surveyCount = σ.surveyCount) :
    ((Finset.range σ'.surveyCount).sum fun i => f (σ'.surveys i)) + f (σ.surveys id)
      = ((Finset.range σ.surveyCount).sum fun i => f (σ.surveys i)) + f sv := by
  rw [hc, hs, comp_update σ.surveys f id sv]
  exact sum_range_update h _ _

theorem sumSurveys_create {σ σ' : SState} (f : Survey → Nat) {sv : Survey}
    (hs : σ'.surveys = Function.update σ.surveys σ.surveyCount sv)
    (hc : σ'.surveyCount = σ.surveyCount + 1) :
    ((Finset.range σ'.surveyCount).sum fun i => f (σ'.surveys i))
      = ((Finset.range σ.surveyCount).sum fun i => f (σ.surveys i)) + f sv := by
  rw [hc, hs, comp_update σ.surveys f σ.surveyCount sv, Finset.sum_range_succ]
  rw [sum_range_update_out (Nat.le_refl _), Function.update_same]

theorem sumSurveys_congr (σ σ' : SState) (f : Survey → Nat)
    (hs : σ'.surveys = σ.surveys) (hc : σ'.surveyCount = σ.surveyCount) :
    ((Finset.range σ'.surveyCount).sum fun i => f (σ'.surveys i))
      = (Finset.range σ.surveyCount).sum fun i => f (σ.surveys i) := by
  rw [hc, hs]

/-!
## The inductive invariant
-/

/-- The inductive invariant of the contract, established at deployment and
preserved by every transaction. -/
structure Inv (σ : SState) : Prop where
  fresh : ∀ id, σ.surveyCount ≤ id → σ.surveys id = emptySurvey
  created : ∀ id, id < σ.surveyCount → (σ.surveys id).creator ≠ 0
  wsub : ∀ id, (σ.surveys id).withdrawn ⊆ (σ.surveys id).voted
  pool : ∀ id, (σ.surveys id).rewardPool = (σ.surveys id).initialPool ∨
    ((σ.surveys id).rewardPool = 0 ∧ (σ.surveys id).endTime ≤ σ.now)
  initPos : ∀ id, id < σ.surveyCount → 0 < (σ.surveys id).initialPool
  funds : entitlements σ ≤ σ.balance + shortfallTotal σ
  relOnce : ∀ id, countReleased id σ.events =
    if (σ.surveys id).resultsReleased = true then 1 else 0

theorem inv_init : Inv initialState := by
  constructor <;>
    simp [initialState, emptySurvey, entitlements, shortfallTotal, countReleased]

theorem creator_lt_count {σ : SState} (hInv : Inv σ) {id : Nat}
    (h : (σ.surveys id).creator ≠ 0) : id < σ.surveyCount := by
  by_contra hlt
  have := hInv.fresh id (Nat.le_of_not_lt hlt)
  rw [this] at h
  exact h rfl

theorem voted_lt_count {σ : SState} (hInv : Inv σ) {id a : Nat}
    (h : a ∈ (σ.surveys id).voted) : id < σ.surveyCount := by
  by_contra hlt
  have hev := hInv.fresh id (Nat.le_of_not_lt hlt)
  rw [hev] at h
  exact absurd h (Finset.not_mem_empty a)

theorem update_forall {f : Nat → Survey} {id0 : Nat} {sv : Survey} {P : Nat → Survey → Prop}
    (hnew : P id0 sv) (hold : ∀ id, P id (f id)) :
    ∀ id, P id (Function.update f id0 sv id) := by
  intro id
  rcases eq_or_ne id id0 with rfl | hne
  · rwa [Function.update_same]
  · rw [Function.update_noteq hne]
    exact hold id

theorem entitlements_update {σ σ' : SState} {id0 : Nat} (h : id0 < σ.surveyCount)
    {sv : Survey} (hs : σ'.surveys = Function.update σ.surveys id0 sv)
    (hc : σ'.surveyCount = σ.surveyCount) :
    entitlements σ' + perSurveyEntitlement (σ.surveys id0)
      = entitlements σ + perSurveyEntitlement sv :=
  sumSurveys_update perSurveyEntitlement h hs hc

theorem shortfallTotal_update {σ σ' : SState} {id0 : Nat} (h : id0 < σ.surveyCount)
    {sv : Survey} (hs : σ'.surveys = Function.update σ.surveys id0 sv)
    (hc : σ'.surveyCount = σ.surveyCount) :
    shortfallTotal σ' + shortfall (σ.surveys id0) = shortfallTotal σ + shortfall sv :=
  sumSurveys_update shortfall h hs hc

theorem entitlements_create {σ σ' : SState} {sv : Survey}
    (hs : σ'.surveys = Function.update σ.surveys σ.surveyCount sv)
    (hc : σ'.surveyCount = σ.surveyCount + 1) :
    entitlements σ' = entitlements σ + perSurveyEntitlement sv :=
  sumSurveys_create perSurveyEntitlement hs hc

theorem shortfallTotal_create {σ σ' : SState} {sv : Survey}
    (hs : σ'.surveys = Function.update σ.surveys σ.surveyCount sv)
    (hc : σ'.surveyCount = σ.surveyCount + 1) :
    shortfallTotal σ' = shortfallTotal σ + shortfall sv :=
  sumSurveys_create shortfall hs hc

theorem entitlements_congr (σ σ' : SState) (hs : σ'.surveys = σ.surveys)
    (hc : σ'.surveyCount = σ.surveyCount) : entitlements σ' = entitlements σ :=
  sumSurveys_congr σ σ' perSurveyEntitlement hs hc

theorem shortfallTotal_congr (σ σ' : SState) (hs : σ'.surveys = σ.surveys)
    (hc : σ'.surveyCount = σ.surveyCount) : shortfallTotal σ' = shortfallTotal σ :=
  sumSurveys_congr σ σ' shortfall hs hc

theorem countReleased_relDec (id sid t idx : Nat) :
    countReleased id [Event.resultsReleased sid t, Event.decryptionRequested sid idx]
      = if sid = id then 1 else 0 := by
  by_cases h : sid = id <;> simp [countReleased, isReleasedSignal, h]

theorem inv_step {σ σ' : SState} (hInv : Inv σ) (hs : Step σ σ') : Inv σ' := by
  cases hs with
  | create caller value question options dur dep rpr σ'' surveyId hc h =>
    obtain ⟨h1, h2, h3, h4, h5, h6, h7, h8⟩ := createSurvey_dest h
    subst h7
    set X := createResult σ caller value question options dur dep rpr with hX
    set svN := newSurvey caller value question options (σ.now + dur)
      (defaultedDeposit dep) rpr with hsvN
    have hsurv : X.surveys = Function.update σ.surveys σ.surveyCount svN := rfl
    have hcnt : X.surveyCount = σ.surveyCount + 1 := rfl
    have hbal : X.balance = σ.balance + value := rfl
    have hnow : X.now = σ.now := rfl
    have hev : X.events = σ.events ++ [Event.surveyCreated σ.surveyCount caller question
      options.length (σ.now + dur) value (defaultedDeposit dep) rpr] := rfl
    constructor
    · intro id hge
      rw [hcnt] at hge
      rw [hsurv, Function.update_noteq (by omega)]
      exact hInv.fresh id (by omega)
    · intro id hlt
      rw [hcnt] at hlt
      rw [hsurv]
      rcases eq_or_ne id σ.surveyCount with rfl | hne
      · rw [Function.update_same]
        simpa [hsvN, newSurvey] using hc
      · rw [Function.update_noteq hne]
        exact hInv.created id (by omega)
    · intro id
      rw [hsurv]
      rcases eq_or_ne id σ.surveyCount with rfl | hne
      · rw [Function.update_same]
        simp [hsvN, newSurvey]
      · rw [Function.update_noteq hne]
        exact hInv.wsub id
    · intro id
      rw [hsurv, hnow]
      rcases eq_or_ne id σ.surveyCount with rfl | hne
      · rw [Function.update_same]
        simp [hsvN, newSurvey]
      · rw [Function.update_noteq hne]
        exact hInv.pool id
    · intro id hlt
      rw [hsurv]
      rcases eq_or_ne id σ.surveyCount with rfl | hne
      · rw [Function.update_same]
        simp only [hsvN, newSurvey]
        omega
      · rw [Function.update_noteq hne]
        rw [hcnt] at hlt
        exact hInv.initPos id (by omega)
    · have hE := entitlements_create hsurv hcnt
      have hS := shortfallTotal_create hsurv hcnt
      have hPE : perSurveyEntitlement svN = value := by
        simp [hsvN, newSurvey, perSurveyEntitlement, participantEntitlement,
          creatorEntitlement, h4]
      have hSF : shortfall svN = 0 := by
        simp [hsvN, newSurvey, shortfall]
      have hIH := hInv.funds
      rw [hPE] at hE
      rw [hSF] at hS
      omega
    · intro id
      rw [hev, countReleased_append, countReleased_created]
      rcases eq_or_ne id σ.surveyCount with rfl | hne
      · simp only [hsurv, Function.update_same]
        have hf := hInv.fresh σ.surveyCount (Nat.le_refl _)
        have hr := hInv.relOnce σ.surveyCount
        rw [hf] at hr
        simpa [hsvN, newSurvey, emptySurvey] using hr
      · simp only [hsurv, Function.update_noteq hne]
        simpa using hInv.relOnce id
  | submit caller value surveyId choice σ'' hch h =>
    rw [submitResponse_ok] at h
    obtain ⟨h1, h2, h3, h4, h5, h6⟩ := h
    subst h6
    have hid : surveyId < σ.surveyCount := creator_lt_count hInv h1
    have hpool : (σ.surveys surveyId).rewardPool = (σ.surveys surveyId).initialPool := by
      rcases hInv.pool surveyId with hp | ⟨hp, hpe⟩
      · exact hp
      · omega
    have hnw : caller ∉ (σ.surveys surveyId).withdrawn := fun hmem =>
      h4 (hInv.wsub surveyId hmem)
    set X := submitResult σ caller value surveyId choice with hX
    set svN : Survey := { σ.surveys surveyId with
      encryptedVotes := tallySweep (σ.surveys surveyId).encryptedVotes choice
        (σ.surveys surveyId).options.length
      voted := insert caller (σ.surveys surveyId).voted
      totalResponses := (σ.surveys surveyId).totalResponses + 1 } with hsvN
    have hsurv : X.surveys = Function.update σ.surveys surveyId svN := rfl
    have hcnt : X.surveyCount = σ.surveyCount := rfl
    have hbal : X.balance = σ.balance + value := rfl
    have hnow : X.now = σ.now := rfl
    have hev : X.events = σ.events ++
      [Event.responseSubmitted surveyId caller σ.now value] := rfl
    constructor
    · intro id hge
      rw [hcnt] at hge
      rw [hsurv, Function.update_noteq (by omega)]
      exact hInv.fresh id hge
    · intro id hlt
      rw [hcnt] at hlt
      rw [hsurv]
      rcases eq_or_ne id surveyId with rfl | hne
      · rw [Function.update_same]
        exact h1
      · rw [Function.update_noteq hne]
        exact hInv.created id hlt
    · intro id
      rw [hsurv]
      rcases eq_or_ne id surveyId with rfl | hne
      · rw [Function.update_same]
        exact fun a ha => Finset.mem_insert_of_mem (hInv.wsub id ha)
      · rw [Function.update_noteq hne]
        exact hInv.wsub id
    · intro id
      rw [hsurv, hnow]
      rcases eq_or_ne id surveyId with rfl | hne
      · rw [Function.update_same]
        exact hInv.pool id
      · rw [Function.update_noteq hne]
        exact hInv.pool id
    · intro id hlt
      rw [hcnt] at hlt
      rw [hsurv]
      rcases eq_or_ne id surveyId with rfl | hne
      · rw [Function.update_same]
        exact hInv.initPos id hlt
      · rw [Function.update_noteq hne]
        exact hInv.initPos id hlt
    · have hE := entitlements_update hid hsurv hcnt
      have hS := shortfallTotal_update hid hsurv hcnt
      have hne0 : ¬(σ.surveys surveyId).rewardPool = 0 := by
        have := hInv.initPos surveyId hid
        omega
      have hcard : (insert caller (σ.surveys surveyId).voted \
          (σ.surveys surveyId).withdrawn).card
          = ((σ.surveys surveyId).voted \ (σ.surveys surveyId).withdrawn).card + 1 := by
        rw [Finset.insert_sdiff_of_not_mem _ hnw]
        exact Finset.card_insert_of_not_mem fun hmem => h4 (Finset.mem_sdiff.mp hmem).1
      have hPEnew : perSurveyEntitlement svN
          = ((σ.surveys surveyId).voted \ (σ.surveys surveyId).withdrawn).card *
              ((σ.surveys surveyId).depositRequired + (σ.surveys surveyId).rewardPerResponse)
            + ((σ.surveys surveyId).depositRequired + (σ.surveys surveyId).rewardPerResponse)
            + ((σ.surveys surveyId).initialPool -
              ((σ.surveys surveyId).totalResponses * (σ.surveys surveyId).rewardPerResponse
                + (σ.surveys surveyId).rewardPerResponse)) := by
        unfold perSurveyEntitlement participantEntitlement creatorEntitlement
        simp only [hsvN]
        rw [hcard, if_neg hne0, hpool, Nat.succ_mul, add_mul, one_mul]
      have hPEold : perSurveyEntitlement (σ.surveys surveyId)
          = ((σ.surveys surveyId).voted \ (σ.surveys surveyId).withdrawn).card *
              ((σ.surveys surveyId).depositRequired + (σ.surveys surveyId).rewardPerResponse)
            + ((σ.surveys surveyId).initialPool -
              (σ.surveys surveyId).totalResponses * (σ.surveys surveyId).rewardPerResponse) := by
        unfold perSurveyEntitlement participantEntitlement creatorEntitlement
        rw [if_neg hne0, hpool]
      have hSFnew : shortfall svN
          = (σ.surveys surveyId).totalResponses * (σ.surveys surveyId).rewardPerResponse
            + (σ.surveys surveyId).rewardPerResponse - (σ.surveys surveyId).initialPool := by
        unfold shortfall
        simp only [hsvN]
        rw [Nat.succ_mul]
      have hSFold : shortfall (σ.surveys surveyId)
          = (σ.surveys surveyId).totalResponses * (σ.surveys surveyId).rewardPerResponse
            - (σ.surveys surveyId).initialPool := rfl
      have hIH := hInv.funds
      rw [hPEnew, hPEold] at hE
      rw [hSFnew, hSFold] at hS
      omega
    · intro id
      rw [hev, countReleased_append, countReleased_submitted]
      rcases eq_or_ne id surveyId with rfl | hne
      · simp only [hsurv, Function.update_same, hsvN]
        simpa using hInv.relOnce id
      · simp only [hsurv, Function.update_noteq hne]
        simpa using hInv.relOnce id
  | withdrawP caller surveyId σ'' h =>
    rw [withdrawParticipantFunds_ok] at h
    obtain ⟨h1, h2, h3, h4, h5⟩ := h
    subst h5
    have hid : surveyId < σ.surveyCount := creator_lt_count hInv h1
    set svN : Survey := { σ.surveys surveyId with
      withdrawn := insert caller (σ.surveys surveyId).withdrawn } with hsvN
    set X := { withdrawMarkResult σ caller surveyId with
      balance := σ.balance - participantPayout (σ.surveys surveyId)
      events := σ.events ++ [Event.participantWithdrawal surveyId caller
        (σ.surveys surveyId).depositRequired (σ.surveys surveyId).rewardPerResponse
        (participantPayout (σ.surveys surveyId))] } with hX
    have hsurv : X.surveys = Function.update σ.surveys surveyId svN := rfl
    have hcnt : X.surveyCount = σ.surveyCount := rfl
    have hbal : X.balance = σ.balance -
      ((σ.surveys surveyId).depositRequired + (σ.surveys surveyId).rewardPerResponse) := rfl
    have hnow : X.now = σ.now := rfl
    have hev : X.events = σ.events ++ [Event.participantWithdrawal surveyId caller
      (σ.surveys surveyId).depositRequired (σ.surveys surveyId).rewardPerResponse
      (participantPayout (σ.surveys surveyId))] := rfl
    constructor
    · intro id hge
      rw [hcnt] at hge
      rw [hsurv, Function.update_noteq (by omega)]
      exact hInv.fresh id hge
    · intro id hlt
      rw [hcnt] at hlt
      rw [hsurv]
      rcases eq_or_ne id surveyId with rfl | hne
      · rw [Function.update_same]
        exact h1
      · rw [Function.update_noteq hne]
        exact hInv.created id hlt
    · intro id
      rw [hsurv]
      rcases eq_or_ne id surveyId with rfl | hne
      · rw [Function.update_same]
        intro a ha
        rcases Finset.mem_insert.mp ha with rfl | ha2
        · exact h2
        · exact hInv.wsub id ha2
      · rw [Function.update_noteq hne]
        exact hInv.wsub id
    · intro id
      rw [hsurv, hnow]
      rcases eq_or_ne id surveyId with rfl | hne
      · rw [Function.update_same]
        exact hInv.pool id
      · rw [Function.update_noteq hne]
        exact hInv.pool id
    · intro id hlt
      rw [hcnt] at hlt
      rw [hsurv]
      rcases eq_or_ne id surveyId with rfl | hne
      · rw [Function.update_same]
        exact hInv.initPos id hlt
      · rw [Function.update_noteq hne]
        exact hInv.initPos id hlt
    · have hE := entitlements_update hid hsurv hcnt
      have hS := shortfallTotal_update hid hsurv hcnt
      have hcard : ((σ.surveys surveyId).voted \
          insert caller (σ.surveys surveyId).withdrawn).card + 1
          = ((σ.surveys surveyId).voted \ (σ.surveys surveyId).withdrawn).card := by
        rw [Finset.sdiff_insert]
        rw [Finset.card_erase_of_mem (Finset.mem_sdiff.mpr ⟨h2, h3⟩)]
        have hpos : 0 < ((σ.surveys surveyId).voted \ (σ.surveys surveyId).withdrawn).card :=
          Finset.card_pos.mpr ⟨caller, Finset.mem_sdiff.mpr ⟨h2, h3⟩⟩
        omega
      have hM : ((σ.surveys surveyId).voted \
          insert caller (σ.surveys surveyId).withdrawn).card *
            ((σ.surveys surveyId).depositRequired + (σ.surveys surveyId).rewardPerResponse)
          + ((σ.surveys surveyId).depositRequired + (σ.surveys surveyId).rewardPerResponse)
          = ((σ.surveys surveyId).voted \ (σ.surveys surveyId).withdrawn).card *
            ((σ.surveys surveyId).depositRequired + (σ.surveys surveyId).rewardPerResponse) := by
        rw [← hcard, add_mul, one_mul]
      have hPEnew : perSurveyEntitlement svN
          = ((σ.surveys surveyId).voted \ insert caller (σ.surveys surveyId).withdrawn).card *
              ((σ.surveys surveyId).depositRequired + (σ.surveys surveyId).rewardPerResponse)
            + creatorEntitlement (σ.surveys surveyId) := by
        unfold perSurveyEntitlement participantEntitlement
        simp only [hsvN]
        rfl
      have hPEold : perSurveyEntitlement (σ.surveys surveyId)
          = ((σ.surveys surveyId).voted \ (σ.surveys surveyId).withdrawn).card *
              ((σ.surveys surveyId).depositRequired + (σ.surveys surveyId).rewardPerResponse)
            + creatorEntitlement (σ.surveys surveyId) := rfl
      have hSFnew : shortfall svN = shortfall (σ.surveys surveyId) := rfl
      have hble : (σ.surveys surveyId).depositRequired +
          (σ.surveys surveyId).rewardPerResponse ≤ σ.balance := h4
      have hIH := hInv.funds
      rw [hPEnew, hPEold] at hE
      rw [hSFnew] at hS
      omega
    · intro id
      rw [hev, countReleased_append, countReleased_pwithdraw]
      have hsurv3 : (withdrawMarkResult σ caller surveyId).surveys
          = Function.update σ.surveys surveyId svN := rfl
      rcases eq_or_ne id surveyId with rfl | hne
      · simp only [hsurv, hsurv3, Function.update_same, hsvN]
        simpa using hInv.relOnce id
      · simp only [hsurv, hsurv3, Function.update_noteq hne]
        simpa using hInv.relOnce id
  | release caller surveyId optionIndex σ'' h =>
    rw [releaseAndRequestDecrypt_ok] at h
    obtain ⟨h1, h2, h3, h4⟩ := h
    subst h4
    have hid : surveyId < σ.surveyCount := creator_lt_count hInv h1
    unfold releaseResult
    simp only []
    split_ifs with hrel
    · constructor
      · exact hInv.fresh
      · exact hInv.created
      · exact hInv.wsub
      · exact hInv.pool
      · exact hInv.initPos
      · have hE := entitlements_congr σ
          { σ with events := σ.events ++
            [Event.decryptionRequested surveyId optionIndex] } rfl rfl
        have hS := shortfallTotal_congr σ
          { σ with events := σ.events ++
            [Event.decryptionRequested surveyId optionIndex] } rfl rfl
        have hIH := hInv.funds
        have hbal : ({ σ with events := σ.events ++
          [Event.decryptionRequested surveyId optionIndex] } : SState).balance
            = σ.balance := rfl
        omega
      · intro id
        rw [countReleased_append, countReleased_decReq]
        simpa using hInv.relOnce id
    · have hBfalse : (σ.surveys surveyId).resultsReleased = false := by
        cases hb : (σ.surveys surveyId).resultsReleased
        · rfl
        · exact absurd hb hrel
      set svN : Survey := { σ.surveys surveyId with
        resultsReleased := true, isActive := false } with hsvN
      set X : SState := { σ with
        surveys := Function.update σ.surveys surveyId svN
        events := σ.events ++ [Event.resultsReleased surveyId σ.now,
          Event.decryptionRequested surveyId optionIndex] } with hX
      have hsurv : X.surveys = Function.update σ.surveys surveyId svN := rfl
      have hcnt : X.surveyCount = σ.surveyCount := rfl
      have hnow : X.now = σ.now := rfl
      have hev : X.events = σ.events ++ [Event.resultsReleased surveyId σ.now,
        Event.decryptionRequested surveyId optionIndex] := rfl
      constructor
      · intro id hge
        rw [hcnt] at hge
        rw [hsurv, Function.update_noteq (by omega)]
        exact hInv.fresh id hge
      · intro id hlt
        rw [hcnt] at hlt
        rw [hsurv]
        rcases eq_or_ne id surveyId with rfl | hne
        · rw [Function.update_same]
          exact h1
        · rw [Function.update_noteq hne]
          exact hInv.created id hlt
      · intro id
        rw [hsurv]
        rcases eq_or_ne id surveyId with rfl | hne
        · rw [Function.update_same]
          exact hInv.wsub id
        · rw [Function.update_noteq hne]
          exact hInv.wsub id
      · intro id
        rw [hsurv, hnow]
        rcases eq_or_ne id surveyId with rfl | hne
        · rw [Function.update_same]
          exact hInv.pool id
        · rw [Function.update_noteq hne]
          exact hInv.pool id
      · intro id hlt
        rw [hcnt] at hlt
        rw [hsurv]
        rcases eq_or_ne id surveyId with rfl | hne
        · rw [Function.update_same]
          exact hInv.initPos id hlt
        · rw [Function.update_noteq hne]
          exact hInv.initPos id hlt
      · have hE := entitlements_update hid hsurv hcnt
        have hS := shortfallTotal_update hid hsurv hcnt
        have hPEnew : perSurveyEntitlement svN
            = perSurveyEntitlement (σ.surveys surveyId) := rfl
        have hSFnew : shortfall svN = shortfall (σ.surveys surveyId) := rfl
        have hIH := hInv.funds
        have hbal : X.balance = σ.balance := rfl
        rw [hPEnew] at hE
        rw [hSFnew] at hS
        omega
      · intro id
        rw [hev, countReleased_append, countReleased_relDec]
        rcases eq_or_ne id surveyId with rfl | hne
        · simp only [hsurv, Function.update_same, hsvN]
          have hr := hInv.relOnce id
          rw [hBfalse] at hr
          simp only [Bool.false_eq_true, if_false] at hr
          simp [hr]
        · simp only [hsurv, Function.update_noteq hne]
          have hr := hInv.relOnce id
          simp [Ne.symm hne, hr]
  | store surveyId optionIndex value σ'' hv h =>
    rw [storeDecryptedVote_ok] at h
    obtain ⟨h1, h2, h3⟩ := h
    subst h3
    have hid : surveyId < σ.surveyCount := by
      by_contra hlt
      have hev := hInv.fresh surveyId (Nat.le_of_not_lt hlt)
      rw [hev] at h1
      simp [emptySurvey] at h1
    set svN : Survey := { σ.surveys surveyId with
      decryptedVotes := Function.update (σ.surveys surveyId).decryptedVotes optionIndex value
      settled := Function.update (σ.surveys surveyId).settled optionIndex true } with hsvN
    set X := storeResult σ surveyId optionIndex value with hX
    have hsurv : X.surveys = Function.update σ.surveys surveyId svN := rfl
    have hcnt : X.surveyCount = σ.surveyCount := rfl
    have hnow : X.now = σ.now := rfl
    have hev : X.events = σ.events ++
      [Event.voteDecrypted surveyId optionIndex value] := rfl
    constructor
    · intro id hge
      rw [hcnt] at hge
      rw [hsurv, Function.update_noteq (by omega)]
      exact hInv.fresh id hge
    · intro id hlt
      rw [hcnt] at hlt
      rw [hsurv]
      rcases eq_or_ne id surveyId with rfl | hne
      · rw [Function.update_same]
        exact hInv.created id hid
      · rw [Function.update_noteq hne]
        exact hInv.created id hlt
    · intro id
      rw [hsurv]
      rcases eq_or_ne id surveyId with rfl | hne
      · rw [Function.update_same]
        exact hInv.wsub id
      · rw [Function.update_noteq hne]
        exact hInv.wsub id
    · intro id
      rw [hsurv, hnow]
      rcases eq_or_ne id surveyId with rfl | hne
      · rw [Function.update_same]
        exact hInv.pool id
      · rw [Function.update_noteq hne]
        exact hInv.pool id
    · intro id hlt
      rw [hcnt] at hlt
      rw [hsurv]
      rcases eq_or_ne id surveyId with rfl | hne
      · rw [Function.update_same]
        exact hInv.initPos id hlt
      · rw [Function.update_noteq hne]
        exact hInv.initPos id hlt
    · have hE := entitlements_update hid hsurv hcnt
      have hS := shortfallTotal_update hid hsurv hcnt
      have hPEnew : perSurveyEntitlement svN
          = perSurveyEntitlement (σ.surveys surveyId) := rfl
      have hSFnew : shortfall svN = shortfall (σ.surveys surveyId) := rfl
      have hIH := hInv.funds
      have hbal : X.balance = σ.balance := rfl
      rw [hPEnew] at hE
      rw [hSFnew] at hS
      omega
    · intro id
      rw [hev, countReleased_append, countReleased_voteDec]
      rcases eq_or_ne id surveyId with rfl | hne
      · simp only [hsurv, Function.update_same, hsvN]
        simpa using hInv.relOnce id
      · simp only [hsurv, Function.update_noteq hne]
        simpa using hInv.relOnce id
  | withdrawR caller surveyId σ'' h =>
    obtain ⟨h1, h2, h3, h4, h5, h6⟩ := withdrawRewardPool_dest h
    subst h6
    have hid : surveyId < σ.surveyCount := creator_lt_count hInv h1
    set svN : Survey := { σ.surveys surveyId with rewardPool := 0 } with hsvN
    set X : SState := { σ with
      surveys := Function.update σ.surveys surveyId svN
      balance := σ.balance - ((σ.surveys surveyId).rewardPool -
        (σ.surveys surveyId).totalResponses * (σ.surveys surveyId).rewardPerResponse)
      events := σ.events ++ [Event.rewardPoolWithdrawn surveyId
        (σ.surveys surveyId).creator ((σ.surveys surveyId).rewardPool -
          (σ.surveys surveyId).totalResponses * (σ.surveys surveyId).rewardPerResponse)] }
      with hX
    have hsurv : X.surveys = Function.update σ.surveys surveyId svN := rfl
    have hcnt : X.surveyCount = σ.surveyCount := rfl
    have hbal : X.balance = σ.balance - ((σ.surveys surveyId).rewardPool -
      (σ.surveys surveyId).totalResponses * (σ.surveys surveyId).rewardPerResponse) := rfl
    have hnow : X.now = σ.now := rfl
    have hev : X.events = σ.events ++ [Event.rewardPoolWithdrawn surveyId
      (σ.surveys surveyId).creator ((σ.surveys surveyId).rewardPool -
        (σ.surveys surveyId).totalResponses * (σ.surveys surveyId).rewardPerResponse)] := rfl
    constructor
    · intro id hge
      rw [hcnt] at hge
      rw [hsurv, Function.update_noteq (by omega)]
      exact hInv.fresh id hge
    · intro id hlt
      rw [hcnt] at hlt
      rw [hsurv]
      rcases eq_or_ne id surveyId with rfl | hne
      · rw [Function.update_same]
        exact h1
      · rw [Function.update_noteq hne]
        exact hInv.created id hlt
    · intro id
      rw [hsurv]
      rcases eq_or_ne id surveyId with rfl | hne
      · rw [Function.update_same]
        exact hInv.wsub id
      · rw [Function.update_noteq hne]
        exact hInv.wsub id
    · intro id
      rw [hsurv, hnow]
      rcases eq_or_ne id surveyId with rfl | hne
      · rw [Function.update_same]
        exact Or.inr ⟨rfl, h3⟩
      · rw [Function.update_noteq hne]
        exact hInv.pool id
    · intro id hlt
      rw [hcnt] at hlt
      rw [hsurv]
      rcases eq_or_ne id surveyId with rfl | hne
      · rw [Function.update_same]
        exact hInv.initPos id hlt
      · rw [Function.update_noteq hne]
        exact hInv.initPos id hlt
    · have hE := entitlements_update hid hsurv hcnt
      have hS := shortfallTotal_update hid hsurv hcnt
      have hPEnew : perSurveyEntitlement svN
          = participantEntitlement (σ.surveys surveyId) := by
        unfold perSurveyEntitlement creatorEntitlement participantEntitlement
        simp only [hsvN]
        rfl
      have hPEold : perSurveyEntitlement (σ.surveys surveyId)
          = participantEntitlement (σ.surveys surveyId)
            + ((σ.surveys surveyId).rewardPool -
              (σ.surveys surveyId).totalResponses * (σ.surveys surveyId).rewardPerResponse) := by
        unfold perSurveyEntitlement creatorEntitlement
        rw [if_neg h4]
      have hSFnew : shortfall svN = shortfall (σ.surveys surveyId) := rfl
      have hIH := hInv.funds
      rw [hPEnew, hPEold] at hE
      rw [hSFnew] at hS
      omega
    · intro id
      rw [hev, countReleased_append, countReleased_rwithdraw]
      rcases eq_or_ne id surveyId with rfl | hne
      · simp only [hsurv, Function.update_same, hsvN]
        simpa using hInv.relOnce id
      · simp only [hsurv, Function.update_noteq hne]
        simpa using hInv.relOnce id
  | receiveEth value =>
    constructor
    · exact hInv.fresh
    · exact hInv.created
    · exact hInv.wsub
    · exact hInv.pool
    · exact hInv.initPos
    · have hE := entitlements_congr σ { σ with balance := σ.balance + value } rfl rfl
      have hS := shortfallTotal_congr σ { σ with balance := σ.balance + value } rfl rfl
      have hIH := hInv.funds
      have hbal : ({ σ with balance := σ.balance + value } : SState).balance
          = σ.balance + value := rfl
      omega
    · exact hInv.relOnce
  | tick δ =>
    constructor
    · exact hInv.fresh
    · exact hInv.created
    · exact hInv.wsub
    · intro id
      rcases hInv.pool id with hp | ⟨hp, hpe⟩
      · exact Or.inl hp
      · refine Or.inr ⟨hp, ?hh⟩
        show (σ.surveys id).endTime ≤ σ.now + δ
        omega
    · exact hInv.initPos
    · have hE := entitlements_congr σ { σ with now := σ.now + δ } rfl rfl
      have hS := shortfallTotal_congr σ { σ with now := σ.now + δ } rfl rfl
      have hIH := hInv.funds
      have hbal : ({ σ with now := σ.now + δ } : SState).balance = σ.balance := rfl
      omega
    · exact hInv.relOnce

theorem reachable_inv {σ : SState} (h : Reachable σ) : Inv σ := by
  induction h with
  | init => exact inv_init
  | step _ hstep ih => exact inv_step ih hstep

theorem inv_steps {σ σ' : SState} (hInv : Inv σ)
    (h : Relation.ReflTransGen Step σ σ') : Inv σ' := by
  induction h with
  | refl => exact hInv
  | tail _ hstep ih => exact inv_step ih hstep

/-!
## Monotonicity of the per-participant flags
-/

theorem voted_update_mono (f : Nat → Survey) (id0 : Nat) {sv : Survey}
    (hsub : (f id0).voted ⊆ sv.voted) {id a : Nat} (h : a ∈ (f id).voted) :
    a ∈ (Function.update f id0 sv id).voted := by
  rcases eq_or_ne id id0 with rfl | hne
  · rw [Function.update_same]
    exact hsub h
  · rw [Function.update_noteq hne]
    exact h

theorem withdrawn_update_mono (f : Nat → Survey) (id0 : Nat) {sv : Survey}
    (hsub : (f id0).withdrawn ⊆ sv.withdrawn) {id a : Nat}
    (h : a ∈ (f id).withdrawn) : a ∈ (Function.update f id0 sv id).withdrawn := by
  rcases eq_or_ne id id0 with rfl | hne
  · rw [Function.update_same]
    exact hsub h
  · rw [Function.update_noteq hne]
    exact h

theorem step_voted_mono {σ σ' : SState} (hInv : Inv σ) (hs : Step σ σ')
    {id a : Nat} (h : a ∈ (σ.surveys id).voted) : a ∈ (σ'.surveys id).voted := by
  cases hs with
  | create caller value question options dur dep rpr σ'' surveyId hc hcr =>
    obtain ⟨h1, h2, h3, h4, h5, h6, h7, h8⟩ := createSurvey_dest hcr
    subst h7
    refine voted_update_mono σ.surveys σ.surveyCount ?_ h
    rw [hInv.fresh σ.surveyCount (Nat.le_refl _)]
    exact Finset.empty_subset _
  | submit caller value surveyId choice σ'' hch hsub =>
    rw [submitResponse_ok] at hsub
    obtain ⟨h1, h2, h3, h4, h5, h6⟩ := hsub
    subst h6
    refine voted_update_mono σ.surveys surveyId ?_ h
    exact Finset.subset_insert _ _
  | withdrawP caller surveyId σ'' hw =>
    rw [withdrawParticipantFunds_ok] at hw
    obtain ⟨h1, h2, h3, h4, h5⟩ := hw
    subst h5
    show a ∈ (Function.update σ.surveys surveyId
      { σ.surveys surveyId with
          withdrawn := insert caller (σ.surveys surveyId).withdrawn } id).voted
    refine voted_update_mono σ.surveys surveyId ?_ h
    exact Finset.Subset.refl _
  | release caller surveyId optionIndex σ'' hr =>
    rw [releaseAndRequestDecrypt_ok] at hr
    obtain ⟨h1, h2, h3, h4⟩ := hr
    subst h4
    unfold releaseResult
    simp only []
    split_ifs with hrel
    · exact h
    · show a ∈ (Function.update σ.surveys surveyId
        { σ.surveys surveyId with resultsReleased := true, isActive := false } id).voted
      refine voted_update_mono σ.surveys surveyId ?_ h
      exact Finset.Subset.refl _
  | store surveyId optionIndex value σ'' hv hst =>
    rw [storeDecryptedVote_ok] at hst
    obtain ⟨h1, h2, h3⟩ := hst
    subst h3
    show a ∈ (Function.update σ.surveys surveyId
      { σ.surveys surveyId with
          decryptedVotes := Function.update (σ.surveys surveyId).decryptedVotes
            optionIndex value
          settled := Function.update (σ.surveys surveyId).settled optionIndex true } id).voted
    refine voted_update_mono σ.surveys surveyId ?_ h
    exact Finset.Subset.refl _
  | withdrawR caller surveyId σ'' hw =>
    obtain ⟨h1, h2, h3, h4, h5, h6⟩ := withdrawRewardPool_dest hw
    subst h6
    show a ∈ (Function.update σ.surveys surveyId
      { σ.surveys surveyId with rewardPool := 0 } id).voted
    refine voted_update_mono σ.surveys surveyId ?_ h
    exact Finset.Subset.refl _
  | receiveEth value => exact h
  | tick δ => exact h

theorem step_withdrawn_mono {σ σ' : SState} (hInv : Inv σ) (hs : Step σ σ')
    {id a : Nat} (h : a ∈ (σ.surveys id).withdrawn) :
    a ∈ (σ'.surveys id).withdrawn := by
  cases hs with
  | create caller value question options dur dep rpr σ'' surveyId hc hcr =>
    obtain ⟨h1, h2, h3, h4, h5, h6, h7, h8⟩ := createSurvey_dest hcr
    subst h7
    refine withdrawn_update_mono σ.surveys σ.surveyCount ?_ h
    rw [hInv.fresh σ.surveyCount (Nat.le_refl _)]
    exact Finset.empty_subset _
  | submit caller value surveyId choice σ'' hch hsub =>
    rw [submitResponse_ok] at hsub
    obtain ⟨h1, h2, h3, h4, h5, h6⟩ := hsub
    subst h6
    show a ∈ (Function.update σ.surveys surveyId
      { σ.surveys surveyId with
          encryptedVotes := tallySweep (σ.surveys surveyId).encryptedVotes choice
            (σ.surveys surveyId).options.length
          voted := insert caller (σ.surveys surveyId).voted
          totalResponses := (σ.surveys surveyId).totalResponses + 1 } id).withdrawn
    refine withdrawn_update_mono σ.surveys surveyId ?_ h
    exact Finset.Subset.refl _
  | withdrawP caller surveyId σ'' hw =>
    rw [withdrawParticipantFunds_ok] at hw
    obtain ⟨h1, h2, h3, h4, h5⟩ := hw
    subst h5
    show a ∈ (Function.update σ.surveys surveyId
      { σ.surveys surveyId with
          withdrawn := insert caller (σ.surveys surveyId).withdrawn } id).withdrawn
    refine withdrawn_update_mono σ.surveys surveyId ?_ h
    exact Finset.subset_insert _ _
  | release caller surveyId optionIndex σ'' hr =>
    rw [releaseAndRequestDecrypt_ok] at hr
    obtain ⟨h1, h2, h3, h4⟩ := hr
    subst h4
    unfold releaseResult
    simp only []
    split_ifs with hrel
    · exact h
    · show a ∈ (Function.update σ.surveys surveyId
        { σ.surveys surveyId with resultsReleased := true, isActive := false } id).withdrawn
      refine withdrawn_update_mono σ.surveys surveyId ?_ h
      exact Finset.Subset.refl _
  | store surveyId optionIndex value σ'' hv hst =>
    rw [storeDecryptedVote_ok] at hst
    obtain ⟨h1, h2, h3⟩ := hst
    subst h3
    show a ∈ (Function.update σ.surveys surveyId
      { σ.surveys surveyId with
          decryptedVotes := Function.update (σ.surveys surveyId).decryptedVotes
            optionIndex value
          settled := Function.update (σ.surveys surveyId).settled optionIndex true } id).withdrawn
    refine withdrawn_update_mono σ.surveys surveyId ?_ h
    exact Finset.Subset.refl _
  | withdrawR caller surveyId σ'' hw =>
    obtain ⟨h1, h2, h3, h4, h5, h6⟩ := withdrawRewardPool_dest hw
    subst h6
    show a ∈ (Function.update σ.surveys surveyId
      { σ.surveys surveyId with rewardPool := 0 } id).withdrawn
    refine withdrawn_update_mono σ.surveys surveyId ?_ h
    exact Finset.Subset.refl _
  | receiveEth value => exact h
  | tick δ => exact h

theorem steps_voted_mono {σ σ' : SState} (hInv : Inv σ)
    (h : Relation.ReflTransGen Step σ σ') {id a : Nat}
    (hv : a ∈ (σ.surveys id).voted) : a ∈ (σ'.surveys id).voted := by
  induction h with
  | refl => exact hv
  | tail hsteps hstep ih => exact step_voted_mono (inv_steps hInv hsteps) hstep ih

theorem steps_withdrawn_mono {σ σ' : SState} (hInv : Inv σ)
    (h : Relation.ReflTransGen Step σ σ') {id a : Nat}
    (hv : a ∈ (σ.surveys id).withdrawn) : a ∈ (σ'.surveys id).withdrawn := by
  induction h with
  | refl => exact hv
  | tail hsteps hstep ih => exact step_withdrawn_mono (inv_steps hInv hsteps) hstep ih

/-!
## Tally conservation along honest executions
-/

theorem stepV_tally {σ σ' : SState}
    (hT : ∀ id, tallySum (σ.surveys id) = (σ.surveys id).totalResponses)
    (hs : StepV σ σ') :
    ∀ id, tallySum (σ'.surveys id) = (σ'.surveys id).totalResponses := by
  cases hs with
  | create caller value question options dur dep rpr σ'' surveyId hc hcr =>
    obtain ⟨h1, h2, h3, h4, h5, h6, h7, h8⟩ := createSurvey_dest hcr
    subst h7
    intro id
    show tallySum (Function.update σ.surveys σ.surveyCount
      (newSurvey caller value question options (σ.now + dur) (defaultedDeposit dep) rpr) id)
      = (Function.update σ.surveys σ.surveyCount
        (newSurvey caller value question options (σ.now + dur) (defaultedDeposit dep) rpr)
        id).totalResponses
    rcases eq_or_ne id σ.surveyCount with rfl | hne
    · rw [Function.update_same]
      simp [tallySum, newSurvey]
    · rw [Function.update_noteq hne]
      exact hT id
  | submit caller value surveyId choice σ'' hch hsub =>
    rw [submitResponse_ok] at hsub
    obtain ⟨h1, h2, h3, h4, h5, h6⟩ := hsub
    subst h6
    intro id
    show tallySum (Function.update σ.surveys surveyId
      { σ.surveys surveyId with
        encryptedVotes := tallySweep (σ.surveys surveyId).encryptedVotes choice
          (σ.surveys surveyId).options.length
        voted := insert caller (σ.surveys surveyId).voted
        totalResponses := (σ.surveys surveyId).totalResponses + 1 } id)
      = (Function.update σ.surveys surveyId
        { σ.surveys surveyId with
          encryptedVotes := tallySweep (σ.surveys surveyId).encryptedVotes choice
            (σ.surveys surveyId).options.length
          voted := insert caller (σ.surveys surveyId).voted
          totalResponses := (σ.surveys surveyId).totalResponses + 1 } id).totalResponses
    rcases eq_or_ne id surveyId with rfl | hne
    · rw [Function.update_same]
      unfold tallySum
      show (Finset.range (σ.surveys id).options.length).sum
        (tallySweep (σ.surveys id).encryptedVotes choice (σ.surveys id).options.length)
        = (σ.surveys id).totalResponses + 1
      rw [tallySweep_sum, if_pos hch]
      have := hT id
      unfold tallySum at this
      omega
    · rw [Function.update_noteq hne]
      exact hT id
  | withdrawP caller surveyId σ'' hw =>
    rw [withdrawParticipantFunds_ok] at hw
    obtain ⟨h1, h2, h3, h4, h5⟩ := hw
    subst h5
    intro id
    show tallySum (Function.update σ.surveys surveyId
      { σ.surveys surveyId with
        withdrawn := insert caller (σ.surveys surveyId).withdrawn } id)
      = (Function.update σ.surveys surveyId
        { σ.surveys surveyId with
          withdrawn := insert caller (σ.surveys surveyId).withdrawn } id).totalResponses
    rcases eq_or_ne id surveyId with rfl | hne
    · rw [Function.update_same]
      exact hT id
    · rw [Function.update_noteq hne]
      exact hT id
  | release caller surveyId optionIndex σ'' hr =>
    rw [releaseAndRequestDecrypt_ok] at hr
    obtain ⟨h1, h2, h3, h4⟩ := hr
    subst h4
    unfold releaseResult
    simp only []
    split_ifs with hrel
    · exact hT
    · intro id
      show tallySum (Function.update σ.surveys surveyId
        { σ.surveys surveyId with resultsReleased := true, isActive := false } id)
        = (Function.update σ.surveys surveyId
          { σ.surveys surveyId with resultsReleased := true, isActive := false }
          id).totalResponses
      rcases eq_or_ne id surveyId with rfl | hne
      · rw [Function.update_same]
        exact hT id
      · rw [Function.update_noteq hne]
        exact hT id
  | store surveyId optionIndex value σ'' hv hst =>
    rw [storeDecryptedVote_ok] at hst
    obtain ⟨h1, h2, h3⟩ := hst
    subst h3
    intro id
    show tallySum (Function.update σ.surveys surveyId
      { σ.surveys surveyId with
        decryptedVotes := Function.update (σ.surveys surveyId).decryptedVotes
          optionIndex value
        settled := Function.update (σ.surveys surveyId).settled optionIndex true } id)
      = (Function.update σ.surveys surveyId
        { σ.surveys surveyId with
          decryptedVotes := Function.update (σ.surveys surveyId).decryptedVotes
            optionIndex value
          settled := Function.update (σ.surveys surveyId).settled optionIndex true }
        id).totalResponses
    rcases eq_or_ne id surveyId with rfl | hne
    · rw [Function.update_same]
      exact hT id
    · rw [Function.update_noteq hne]
      exact hT id
  | withdrawR caller surveyId σ'' hw =>
    obtain ⟨h1, h2, h3, h4, h5, h6⟩ := withdrawRewardPool_dest hw
    subst h6
    intro id
    show tallySum (Function.update σ.surveys surveyId
      { σ.surveys surveyId with rewardPool := 0 } id)
      = (Function.update σ.surveys surveyId
        { σ.surveys surveyId with rewardPool := 0 } id).totalResponses
    rcases eq_or_ne id surveyId with rfl | hne
    · rw [Function.update_same]
      exact hT id
    · rw [Function.update_noteq hne]
      exact hT id
  | receiveEth value => exact hT
  | tick δ => exact hT

theorem reachableV_tally {σ : SState} (h : ReachableV σ) :
    ∀ id, tallySum (σ.surveys id) = (σ.surveys id).totalResponses := by
  induction h with
  | init =>
    intro id
    simp [initialState, emptySurvey, tallySum]
  | step _ hstep ih => exact stepV_tally ih hstep

/-!
## Reachability of the concrete executions
-/

theorem reach_st1 : Reachable st1 :=
  Reachable.step Reachable.init
    (Step.create initialState 1 10 "q" ["a", "b"] 60 1 7 st1 0 (by decide) rfl)

theorem reach_st2 : Reachable st2 :=
  Reachable.step reach_st1 (Step.submit st1 2 1 0 0 st2 (by decide) rfl)

theorem reach_st3 : Reachable st3 :=
  Reachable.step reach_st2 (Step.submit st2 3 1 0 1 st3 (by decide) rfl)

theorem reach_st4 : Reachable st4 :=
  Reachable.step reach_st3 (Step.withdrawP st3 2 0 st4 rfl)

theorem reach_st5 : Reachable st5 :=
  Reachable.step reach_st3 (Step.tick st3 60)

theorem reach_st7 : Reachable st7 :=
  Reachable.step reach_st5 (Step.release st5 9 0 0 st7 rfl)

theorem reach_st8 : Reachable st8 :=
  Reachable.step reach_st7 (Step.store st7 0 0 5 st8 (by decide) rfl)

theorem reach_st9 : Reachable st9 :=
  Reachable.step reach_st8 (Step.store st8 0 1 9 st9 (by decide) rfl)

theorem reachV_st1 : ReachableV st1 :=
  ReachableV.step ReachableV.init
    (StepV.create initialState 1 10 "q" ["a", "b"] 60 1 7 st1 0 (by decide) rfl)

theorem reachV_st2 : ReachableV st2 :=
  ReachableV.step reachV_st1 (StepV.submit st1 2 1 0 0 st2 (by decide) rfl)

theorem reachV_st3 : ReachableV st3 :=
  ReachableV.step reachV_st2 (StepV.submit st2 3 1 0 1 st3 (by decide) rfl)

theorem reachV_st5 : ReachableV st5 :=
  ReachableV.step reachV_st3 (StepV.tick st3 60)

theorem reachV_st7 : ReachableV st7 :=
  ReachableV.step reachV_st5 (StepV.release st5 9 0 0 st7 rfl)

theorem reachV_stH1 : ReachableV stH1 :=
  ReachableV.step reachV_st7 (StepV.store st7 0 0 1 stH1 (by decide) rfl)

theorem reachV_stH2 : ReachableV stH2 :=
  ReachableV.step reachV_stH1 (StepV.store stH1 0 1 1 stH2 (by decide) rfl)

/-!
## Error helpers for second calls
-/

theorem withdrawRewardPool_empty {σ : SState} {caller surveyId : Nat}
    (h1 : (σ.surveys surveyId).creator ≠ 0)
    (h2 : caller = (σ.surveys surveyId).creator)
    (h3 : (σ.surveys surveyId).endTime ≤ σ.now)
    (h4 : (σ.surveys surveyId).rewardPool = 0) :
    withdrawRewardPool σ caller surveyId = .error .rewardPoolEmpty := by
  unfold withdrawRewardPool
  simp only []
  rw [if_neg h1, if_neg (not_not_intro h2), if_neg (Nat.not_lt.mpr h3), if_pos h4]

theorem withdrawParticipantFunds_already {σ : SState} {caller surveyId : Nat}
    (h1 : (σ.surveys surveyId).creator ≠ 0)
    (h2 : caller ∈ (σ.surveys surveyId).voted)
    (h3 : caller ∈ (σ.surveys surveyId).withdrawn) :
    withdrawParticipantFunds σ caller surveyId = .error .alreadyWithdrawn := by
  unfold withdrawParticipantFunds
  simp only []
  rw [if_neg h1, if_neg (not_not_intro h2), if_pos h3]

theorem withdrawParticipantFunds_notVoter {σ : SState} {caller surveyId : Nat}
    (h1 : (σ.surveys surveyId).creator ≠ 0)
    (h2 : caller ∉ (σ.surveys surveyId).voted) :
    withdrawParticipantFunds σ caller surveyId = .error .notParticipant := by
  unfold withdrawParticipantFunds
  simp only []
  rw [if_neg h1, if_pos h2]

theorem map_range_zero (n : Nat) :
    (List.range n).map (fun _ => (0 : Nat)) = List.replicate n 0 := by
  induction n with
  | zero => rfl
  | succ m ih =>
    rw [List.range_succ, List.map_append, ih, List.map_singleton]
    rw [← List.replicate_succ' m 0]

/-!
## The claims
-/

/-- C1 counterexample: the trace `st3` — a survey funded with a 10 wei pool at
7 wei reward per response, after two 1 wei-deposit responses — is reachable,
yet its custodied balance (12 wei) is strictly below the sum of unwithdrawn
participant entitlements plus the remaining creator entitlement (16 wei).
This refutes the claim that the solvency inequality holds at every reachable
state. -/
theorem C1_counterexample : Reachable st3 ∧ st3.balance < entitlements st3 :=
  ⟨reach_st3, by decide⟩

/-- C1 amended: at every reachable state in which no survey has promised more
rewards than the pool supplied at its creation
(`totalResponses * rewardPerResponse ≤ initialPool` for every survey), the
custodied balance is at least the sum of unwithdrawn participant entitlements
plus the remaining creator entitlements. -/
theorem C1_fund_invariant_amended : ∀ σ : SState, Reachable σ →
    (∀ id, id < σ.surveyCount →
      (σ.surveys id).totalResponses * (σ.surveys id).rewardPerResponse
        ≤ (σ.surveys id).initialPool) →
    entitlements σ ≤ σ.balance := by
  intro σ hre hcap
  have hInv := reachable_inv hre
  have hS : shortfallTotal σ = 0 := by
    unfold shortfallTotal
    apply Finset.sum_eq_zero
    intro i hi
    have hle := hcap i (Finset.mem_range.mp hi)
    unfold shortfall
    omega
  have hf := hInv.funds
  omega

/-- C1 witness: the amended fund invariant evaluated on the reachable state
`st1` (one freshly created survey, no votes): entitlements 10 ≤ balance 10. -/
theorem C1_witness : entitlements st1 ≤ st1.balance :=
  C1_fund_invariant_amended st1 reach_st1 (by
    intro id hid
    have hz : id = 0 := by
      have : st1.surveyCount = 1 := rfl
      omega
    subst hz
    decide)

/-- C2 counterexample: on the reachable trace `st9` both options of survey 0
have had a decrypted count stored (`settled`), but the counts were supplied by
an adversarial caller (5 and 9), so their sum 14 differs from
`totalResponses = 2`.  This refutes the claim as stated. -/
theorem C2_counterexample : Reachable st9 ∧ (st9.surveys 0).options.length = 2 ∧
    (st9.surveys 0).settled 0 = true ∧ (st9.surveys 0).settled 1 = true ∧
    decryptedSum (st9.surveys 0) = 14 ∧ (st9.surveys 0).totalResponses = 2 :=
  ⟨reach_st9, by decide, by decide, by decide, by decide, by decide⟩

/-- C2 amended: in every execution where participants submit valid option
indices, once every option of a survey has been settled and every stored
decrypted count equals the plaintext of the corresponding encrypted counter
(honest decryption oracle), the sum of the decrypted counts equals
`totalResponses`. -/
theorem C2_tally_conservation_amended : ∀ σ : SState, ReachableV σ →
    ∀ surveyId : Nat,
    (∀ i, i < (σ.surveys surveyId).options.length →
      (σ.surveys surveyId).settled i = true) →
    (∀ i, i < (σ.surveys surveyId).options.length →
      (σ.surveys surveyId).decryptedVotes i = (σ.surveys surveyId).encryptedVotes i) →
    decryptedSum (σ.surveys surveyId) = (σ.surveys surveyId).totalResponses := by
  intro σ hre surveyId hset hhon
  have ht := reachableV_tally hre surveyId
  unfold tallySum at ht
  unfold decryptedSum
  rw [Finset.sum_congr rfl (fun i hi => hhon i (Finset.mem_range.mp hi))]
  exact ht

/-- C2 witness: the honest trace `stH2` (two votes for distinct options, both
options settled with the true counter plaintext 1) satisfies
`decryptedSum = totalResponses = 2`. -/
theorem C2_witness : decryptedSum (stH2.surveys 0) = (stH2.surveys 0).totalResponses := by
  apply C2_tally_conservation_amended stH2 reachV_stH2 0
  · intro i hi
    have h2 : i < 2 := hi
    interval_cases i <;> rfl
  · intro i hi
    have h2 : i < 2 := hi
    interval_cases i <;> rfl

/-- C3: a successful `submitResponse` performs, for every option index `i`
below the option count, the homomorphic equality test of the choice against
the constant `i`, the homomorphic selection of 1-if-equal-else-0 and the
homomorphic addition into the counter of option `i` — so over the plaintext
shadows, the counter of the chosen option increases by 1 and every other
counter by 0 — and afterwards `hasVoted[caller]` holds and `totalResponses`
increments by exactly 1. -/
theorem C3_submit_tally : ∀ (σ : SState) (caller value surveyId choice : Nat)
    (σ' : SState),
    submitResponse σ caller value surveyId choice = .ok σ' →
    (∀ i, i < (σ.surveys surveyId).options.length →
      (σ'.surveys surveyId).encryptedVotes i
        = fheAdd ((σ.surveys surveyId).encryptedVotes i)
            (fheSelect (fheEq choice i) (fheConst 1) (fheConst 0)))
    ∧ (∀ i, i < (σ.surveys surveyId).options.length →
      (σ'.surveys surveyId).encryptedVotes i
        = (σ.surveys surveyId).encryptedVotes i + (if choice = i then 1 else 0))
    ∧ (σ'.surveys surveyId).hasVoted caller
    ∧ (σ'.surveys surveyId).totalResponses = (σ.surveys surveyId).totalResponses + 1 := by
  intro σ caller value surveyId choice σ' h
  rw [submitResponse_ok] at h
  obtain ⟨h1, h2, h3, h4, h5, h6⟩ := h
  subst h6
  have hupd : (submitResult σ caller value surveyId choice).surveys surveyId
      = { σ.surveys surveyId with
          encryptedVotes := tallySweep (σ.surveys surveyId).encryptedVotes choice
            (σ.surveys surveyId).options.length
          voted := insert caller (σ.surveys surveyId).voted
          totalResponses := (σ.surveys surveyId).totalResponses + 1 } :=
    Function.update_same _ _ _
  refine ⟨?v1, ?v2, ?v3, ?v4⟩
  · intro i hi
    rw [hupd]
    show tallySweep (σ.surveys surveyId).encryptedVotes choice
      (σ.surveys surveyId).options.length i = _
    rw [tallySweep_at, if_congr (show ((i < (σ.surveys surveyId).options.length ∧ choice = i)
      ↔ choice = i) from ⟨fun hx => hx.2, fun hx => ⟨hi, hx⟩⟩) rfl rfl]
    by_cases hc : choice = i <;>
      simp [hc, fheAdd, fheSelect, fheEq, fheConst]
  · intro i hi
    rw [hupd]
    show tallySweep (σ.surveys surveyId).encryptedVotes choice
      (σ.surveys surveyId).options.length i = _
    rw [tallySweep_at, if_congr (show ((i < (σ.surveys surveyId).options.length ∧ choice = i)
      ↔ choice = i) from ⟨fun hx => hx.2, fun hx => ⟨hi, hx⟩⟩) rfl rfl]
  · rw [Survey.hasVoted, hupd]
    exact Finset.mem_insert_self caller _
  · rw [hupd]

/-- C3 witness: the successful vote of participant 2 for option 0 on `st1`
(two options, counters starting at 0) increments counter 0 to 1, leaves
counter 1 at 0, marks the voter and bumps `totalResponses` to 1. -/
theorem C3_witness : (st2.surveys 0).encryptedVotes 0 = 1
    ∧ (st2.surveys 0).encryptedVotes 1 = 0
    ∧ (st2.surveys 0).hasVoted 2
    ∧ (st2.surveys 0).totalResponses = 1 := by
  have h := C3_submit_tally st1 2 1 0 0 st2 rfl
  refine ⟨?a, ?b, h.2.2.1, ?c⟩
  · have := h.2.1 0 (by decide)
    simpa using this
  · have := h.2.1 1 (by decide)
    simpa using this
  · have := h.2.2.2
    simpa using this

/-- C8: for every released survey the statistics read returns, for each option
index, `decryptedVotes[i] * 10000 / totalResponses` in integer division, and
all zeros when `totalResponses = 0`. -/
theorem C8_statistics : ∀ (σ : SState) (surveyId : Nat),
    (σ.surveys surveyId).resultsReleased = true →
    getSurveyStatistics σ surveyId
      = .ok ((List.range (σ.surveys surveyId).options.length).map
        (fun i => if (σ.surveys surveyId).totalResponses = 0 then 0
          else (σ.surveys surveyId).decryptedVotes i * 10000
            / (σ.surveys surveyId).totalResponses)) := by
  intro σ surveyId hrel
  unfold getSurveyStatistics
  simp only []
  rw [if_neg (by simp [hrel])]
  by_cases h0 : (σ.surveys surveyId).totalResponses = 0
  · rw [if_pos h0]
    congr 1
    simp only [if_pos h0]
    exact (map_range_zero _).symm
  · rw [if_neg h0]
    congr 1
    apply List.map_congr_left
    intro i _
    rw [if_neg h0]

/-- C8 witness: the spec's percentage scenario — 3 options, 10 responses,
decrypted counts `[3, 5, 2]` — yields `[3000, 5000, 2000]` basis points. -/
theorem C8_witness : getSurveyStatistics stStat 0 = .ok [3000, 5000, 2000] :=
  (C8_statistics stStat 0 rfl).trans rfl

/-- C9: with every other creation precondition held (duration at least the
minimum, a nonzero attached pool, a positive per-response reward not exceeding
it), creation with 1 or 11 options fails with the option-count error, creation
with exactly 2 or exactly 10 options succeeds, a zero `depositRequired`
argument is replaced by the fixed default deposit, and creation fails with the
reward-pool error when `rewardPerResponse` is zero or exceeds the attached
value. -/
theorem C9_create_boundaries : ∀ (σ : SState) (caller value : Nat)
    (question : String) (dur dep rpr : Nat),
    MIN_DURATION ≤ dur → value ≠ 0 → rpr ≠ 0 → rpr ≤ value →
    ((∀ options : List String, options.length = 1 →
      createSurvey σ caller value question options dur dep rpr
        = .error .invalidOptionCount)
    ∧ (∀ options : List String, options.length = 11 →
      createSurvey σ caller value question options dur dep rpr
        = .error .invalidOptionCount)
    ∧ (∀ options : List String, options.length = 2 →
      createSurvey σ caller value question options dur dep rpr
        = .ok (createResult σ caller value question options dur dep rpr, σ.surveyCount))
    ∧ (∀ options : List String, options.length = 10 →
      createSurvey σ caller value question options dur dep rpr
        = .ok (createResult σ caller value question options dur dep rpr, σ.surveyCount))
    ∧ (∀ (options : List String) (σ' : SState) (sid : Nat),
      createSurvey σ caller value question options dur 0 rpr = .ok (σ', sid) →
      (σ'.surveys sid).depositRequired = DEFAULT_DEPOSIT)
    ∧ (∀ (options : List String) (r2 : Nat),
      MIN_OPTIONS ≤ options.length → options.length ≤ MAX_OPTIONS →
      (r2 = 0 ∨ value < r2) →
      createSurvey σ caller value question options dur dep r2
        = .error .insufficientRewardPool)) := by
  intro σ caller value question dur dep rpr hdur hval hrpr hle
  refine ⟨?c1, ?c2, ?c3, ?c4, ?c5, ?c6⟩
  · intro options hlen
    unfold createSurvey
    rw [if_pos (by rw [hlen]; exact Or.inl (by decide))]
  · intro options hlen
    unfold createSurvey
    rw [if_pos (by rw [hlen]; exact Or.inr (by decide))]
  · intro options hlen
    exact createSurvey_intro (by rw [hlen]; decide) (by rw [hlen]; decide) hdur hval hrpr hle
  · intro options hlen
    exact createSurvey_intro (by rw [hlen]; decide) (by rw [hlen]; decide) hdur hval hrpr hle
  · intro options σ' sid h
    obtain ⟨g1, g2, g3, g4, g5, g6, g7, g8⟩ := createSurvey_dest h
    subst g7
    subst g8
    have hupd : (createResult σ caller value question options dur 0 rpr).surveys
        σ.surveyCount = newSurvey caller value question options (σ.now + dur)
          (defaultedDeposit 0) rpr := Function.update_same _ _ _
    rw [hupd]
    rfl
  · intro options r2 hmin hmax hbad
    unfold createSurvey
    rw [if_neg (by omega), if_neg (by omega), if_neg hval,
      if_pos (by rcases hbad with hb | hb
                 · exact Or.inl hb
                 · exact Or.inr hb)]

/-- C9 witness: concrete creations at the deployed state — 1 and 11 options
revert, 2 and 10 options succeed, and a zero per-response reward reverts. -/
theorem C9_witness :
    createSurvey initialState 1 10 "q" ["a"] 60 1 7 = .error .invalidOptionCount
    ∧ createSurvey initialState 1 10 "q"
        ["a", "b", "c", "d", "e", "f", "g", "h", "i", "j", "k"] 60 1 7
        = .error .invalidOptionCount
    ∧ createSurvey initialState 1 10 "q" ["a", "b"] 60 1 7
        = .ok (createResult initialState 1 10 "q" ["a", "b"] 60 1 7, 0)
    ∧ createSurvey initialState 1 10 "q"
        ["a", "b", "c", "d", "e", "f", "g", "h", "i", "j"] 60 1 7
        = .ok (createResult initialState 1 10 "q"
            ["a", "b", "c", "d", "e", "f", "g", "h", "i", "j"] 60 1 7, 0)
    ∧ createSurvey initialState 1 10 "q" ["a", "b"] 60 1 0
        = .error .insufficientRewardPool := by
  have h := C9_create_boundaries initialState 1 10 "q" 60 1 7
    (by decide) (by decide) (by decide) (by decide)
  exact ⟨h.1 _ rfl, h.2.1 _ rfl, h.2.2.1 _ rfl, h.2.2.2.1 _ rfl,
    h.2.2.2.2.2 ["a", "b"] 0 (by decide) (by decide) (Or.inl rfl)⟩

/-- C6: a successful `withdrawRewardPool` implies the caller is the survey
creator, the end time has passed and the pool was nonzero; it pays exactly
`rewardPool - totalResponses * rewardPerResponse` floored at zero, leaves the
pool zeroed (the zeroing is committed in the very state from which the
transfer runs), and a second call on the resulting state fails with the
empty-pool error. -/
theorem C6_creator_withdrawal : ∀ (σ : SState) (caller surveyId : Nat)
    (σ' : SState),
    withdrawRewardPool σ caller surveyId = .ok σ' →
    caller = (σ.surveys surveyId).creator ∧
    (σ.surveys surveyId).endTime ≤ σ.now ∧
    (σ.surveys surveyId).rewardPool ≠ 0 ∧
    σ.balance = σ'.balance + ((σ.surveys surveyId).rewardPool -
      (σ.surveys surveyId).totalResponses * (σ.surveys surveyId).rewardPerResponse) ∧
    (σ'.surveys surveyId).rewardPool = 0 ∧
    withdrawRewardPool σ' caller surveyId = .error .rewardPoolEmpty := by
  intro σ caller surveyId σ' h
  obtain ⟨h1, h2, h3, h4, h5, h6⟩ := withdrawRewardPool_dest h
  subst h6
  have hupd : (Function.update σ.surveys surveyId
      { σ.surveys surveyId with rewardPool := 0 } surveyId)
      = { σ.surveys surveyId with rewardPool := 0 } := Function.update_same _ _ _
  refine ⟨h2, h3, h4, ?bal, ?zero, ?second⟩
  · show σ.balance = σ.balance - ((σ.surveys surveyId).rewardPool -
      (σ.surveys surveyId).totalResponses * (σ.surveys surveyId).rewardPerResponse) + _
    omega
  · show (Function.update σ.surveys surveyId
      { σ.surveys surveyId with rewardPool := 0 } surveyId).rewardPool = 0
    rw [hupd]
  · apply withdrawRewardPool_empty
    · show (Function.update σ.surveys surveyId
        { σ.surveys surveyId with rewardPool := 0 } surveyId).creator ≠ 0
      rw [hupd]
      exact h1
    · show caller = (Function.update σ.surveys surveyId
        { σ.surveys surveyId with rewardPool := 0 } surveyId).creator
      rw [hupd]
      exact h2
    · show (Function.update σ.surveys surveyId
        { σ.surveys surveyId with rewardPool := 0 } surveyId).endTime ≤ σ.now
      rw [hupd]
      exact h3
    · show (Function.update σ.surveys surveyId
        { σ.surveys surveyId with rewardPool := 0 } surveyId).rewardPool = 0
      rw [hupd]

/-- C6 witness: on `stC` (the 10 wei survey just past its end time with zero
responses) the creator's withdrawal succeeds, pays out the whole 10 wei pool,
zeroes the pool, and a repeat call reverts with the empty-pool error. -/
theorem C6_witness : stC.balance = stCW.balance + 10
    ∧ (stCW.surveys 0).rewardPool = 0
    ∧ withdrawRewardPool stCW 1 0 = .error .rewardPoolEmpty := by
  have h := C6_creator_withdrawal stC 1 0 stCW rfl
  exact ⟨by have hb := h.2.2.2.1; simpa using hb, h.2.2.2.2.1, h.2.2.2.2.2⟩

/-- C7: the released signal of each survey fires exactly once.  At every
reachable state the event log holds the signal exactly once if the survey is
released and never otherwise; a successful reveal on an unreleased survey sets
`resultsReleased`, clears `isActive` and emits the signal once; a successful
reveal on an already-released survey leaves every survey unchanged and emits
no further released signal; and the reveal's outcome does not depend on the
caller (no authority check). -/
theorem C7_release_once :
    (∀ σ : SState, Reachable σ → ∀ id : Nat,
      countReleased id σ.events
        = if (σ.surveys id).resultsReleased = true then 1 else 0)
    ∧ (∀ (σ : SState) (caller surveyId optionIndex : Nat) (σ' : SState),
        releaseAndRequestDecrypt σ caller surveyId optionIndex = .ok σ' →
        ((σ.surveys surveyId).resultsReleased = false →
          (σ'.surveys surveyId).resultsReleased = true ∧
          (σ'.surveys surveyId).isActive = false ∧
          countReleased surveyId σ'.events = countReleased surveyId σ.events + 1)
        ∧ ((σ.surveys surveyId).resultsReleased = true →
          σ'.surveys = σ.surveys ∧
          countReleased surveyId σ'.events = countReleased surveyId σ.events))
    ∧ (∀ (σ : SState) (c1 c2 surveyId optionIndex : Nat),
        releaseAndRequestDecrypt σ c1 surveyId optionIndex
          = releaseAndRequestDecrypt σ c2 surveyId optionIndex) := by
  refine ⟨?inv, ?step, ?auth⟩
  · intro σ hre id
    exact (reachable_inv hre).relOnce id
  · intro σ caller surveyId optionIndex σ' h
    rw [releaseAndRequestDecrypt_ok] at h
    obtain ⟨h1, h2, h3, h4⟩ := h
    subst h4
    unfold releaseResult
    constructor
    · intro hfalse
      rw [if_neg (by rw [hfalse]; exact Bool.false_ne_true)]
      refine ⟨?r1, ?r2, ?r3⟩
      · show (Function.update σ.surveys surveyId
          { σ.surveys surveyId with resultsReleased := true, isActive := false }
          surveyId).resultsReleased = true
        rw [Function.update_same]
      · show (Function.update σ.surveys surveyId
          { σ.surveys surveyId with resultsReleased := true, isActive := false }
          surveyId).isActive = false
        rw [Function.update_same]
      · show countReleased surveyId (σ.events ++ [Event.resultsReleased surveyId σ.now,
          Event.decryptionRequested surveyId optionIndex]) = _
        rw [countReleased_append, countReleased_relDec, if_pos rfl]
    · intro htrue
      rw [if_pos htrue]
      refine ⟨rfl, ?r4⟩
      show countReleased surveyId (σ.events ++
        [Event.decryptionRequested surveyId optionIndex]) = _
      rw [countReleased_append, countReleased_decReq]
      omega
  · intro σ c1 c2 surveyId optionIndex
    rfl

/-- C7 witness: on the reachable released state `st7` the signal count of
survey 0 is exactly 1, and the reveal that produced it flipped the lifecycle
flags. -/
theorem C7_witness : countReleased 0 st7.events = 1
    ∧ (st7.surveys 0).resultsReleased = true
    ∧ (st7.surveys 0).isActive = false := by
  have h := (C7_release_once.2.1 st5 9 0 0 st7 rfl).1 (by decide)
  refine ⟨?w1, h.1, h.2.1⟩
  have hinv := C7_release_once.1 st7 reach_st7 0
  rw [hinv, if_pos h.1]

/-- C4 counterexample: on the reachable state `st5` (participant 2 has voted
on survey 0 and the end time has passed) a repeat submission from participant
2 fails, but with the `SurveyEnded` state error rather than the
`AlreadyVoted` duplicate-action error, because the time check precedes the
repeat-voter check.  This refutes the claim that every later attempt fails
with the duplicate-action error. -/
theorem C4_counterexample : Reachable st5 ∧ (2 ∈ (st5.surveys 0).voted) ∧
    submitResponse st5 2 1 0 0 = .error .surveyEnded ∧
    Err.surveyEnded ≠ Err.alreadyVoted :=
  ⟨reach_st5, by decide, rfl, by decide⟩

/-- C4 amended: `submitResponse` rejects with state unchanged exactly when the
survey is unknown, the time is at or after `endTime`, the survey is inactive,
the caller already voted, or the attached value is below the deposit; every
success marks the caller as voted; and for every participant already marked
voted at a reachable state, every later submission attempt fails — with the
duplicate-action error whenever the survey is still open and active. -/
theorem C4_submit_guards :
    (∀ (σ : SState) (caller value surveyId choice : Nat),
      (∃ e, submitResponse σ caller value surveyId choice = .error e) ↔
        ((σ.surveys surveyId).creator = 0 ∨
          (σ.surveys surveyId).endTime ≤ σ.now ∨
          (σ.surveys surveyId).isActive = false ∨
          caller ∈ (σ.surveys surveyId).voted ∨
          value < (σ.surveys surveyId).depositRequired))
    ∧ (∀ (σ : SState) (caller value surveyId choice : Nat) (σ' : SState),
        submitResponse σ caller value surveyId choice = .ok σ' →
        caller ∈ (σ'.surveys surveyId).voted)
    ∧ (∀ (σ σ' : SState), Reachable σ → Relation.ReflTransGen Step σ σ' →
        ∀ (p surveyId : Nat), p ∈ (σ.surveys surveyId).voted →
        ∀ (value choice : Nat),
          (∃ e, submitResponse σ' p value surveyId choice = .error e)
          ∧ (σ'.now < (σ'.surveys surveyId).endTime →
             (σ'.surveys surveyId).isActive = true →
             submitResponse σ' p value surveyId choice = .error .alreadyVoted)) := by
  refine ⟨?guards, ?marks, ?once⟩
  · intro σ caller value surveyId choice
    exact submitResponse_err
  · intro σ caller value surveyId choice σ' h
    rw [submitResponse_ok] at h
    obtain ⟨h1, h2, h3, h4, h5, h6⟩ := h
    subst h6
    have hupd : (submitResult σ caller value surveyId choice).surveys surveyId
        = { σ.surveys surveyId with
            encryptedVotes := tallySweep (σ.surveys surveyId).encryptedVotes choice
              (σ.surveys surveyId).options.length
            voted := insert caller (σ.surveys surveyId).voted
            totalResponses := (σ.surveys surveyId).totalResponses + 1 } :=
      Function.update_same _ _ _
    rw [hupd]
    exact Finset.mem_insert_self caller _
  · intro σ σ' hre hsteps p surveyId hp value choice
    have hInv' : Inv σ' := inv_steps (reachable_inv hre) hsteps
    have hp' : p ∈ (σ'.surveys surveyId).voted :=
      steps_voted_mono (reachable_inv hre) hsteps hp
    constructor
    · exact submitResponse_err.mpr (Or.inr (Or.inr (Or.inr (Or.inl hp'))))
    · intro htime hact
      have hlt : surveyId < σ'.surveyCount := voted_lt_count hInv' hp'
      have hcr : (σ'.surveys surveyId).creator ≠ 0 := hInv'.created surveyId hlt
      unfold submitResponse
      simp only []
      rw [if_neg hcr, if_neg (Nat.not_le.mpr htime),
        if_neg (by rw [hact]; exact Bool.true_eq_false ▸ fun hx => nomatch hx),
        if_pos hp']

/-- C4 witness: the amended claim evaluated on the reachable state `st2`, where
participant 2 has just voted and the survey is still open: the immediate
repeat attempt reverts with the duplicate-action error. -/
theorem C4_witness : submitResponse st2 2 1 0 0 = .error .alreadyVoted := by
  have h := C4_submit_guards.2.2 st2 st2 reach_st2 Relation.ReflTransGen.refl
    2 0 (by decide) 1 0
  exact h.2 (by decide) (by decide)

/-- C5 counterexample: on the reachable state `st4` — the over-promised survey
after the first participant withdrew — participant 3 has voted and never
withdrew, yet the withdrawal fails because only 4 wei of custody remain
against the 8 wei payout.  This refutes the claim that the withdrawal of a
voter always succeeds at any time after voting. -/
theorem C5_counterexample : Reachable st4 ∧ (3 ∈ (st4.surveys 0).voted) ∧
    (3 ∉ (st4.surveys 0).withdrawn) ∧
    withdrawParticipantFunds st4 3 0 = .error .insufficientContractBalance :=
  ⟨reach_st4, by decide, by decide, rfl⟩

/-- C5 amended: for a participant who has voted and not yet withdrawn,
`withdrawParticipantFunds` succeeds whenever the custodied balance covers
`depositRequired + rewardPerResponse` — at any time after voting, with no
closure requirement — pays exactly that amount in one transfer, and commits
`hasWithdrawn` in the state the transfer runs from, so a reentrant or repeat
call fails with the duplicate-action error; calls from non-voters fail with
the not-participant error, repeat calls with the already-withdrawn error, and
at every state reachable from a state where the participant is marked
withdrawn, no further withdrawal by them can succeed. -/
theorem C5_participant_withdrawal :
    (∀ (σ : SState) (caller surveyId : Nat),
      (σ.surveys surveyId).creator ≠ 0 →
      caller ∈ (σ.surveys surveyId).voted →
      caller ∉ (σ.surveys surveyId).withdrawn →
      (σ.surveys surveyId).depositRequired + (σ.surveys surveyId).rewardPerResponse
        ≤ σ.balance →
      ∃ σ', withdrawParticipantFunds σ caller surveyId = .ok σ' ∧
        σ.balance = σ'.balance +
          ((σ.surveys surveyId).depositRequired + (σ.surveys surveyId).rewardPerResponse) ∧
        (σ'.surveys surveyId).hasWithdrawn caller ∧
        withdrawParticipantFunds σ' caller surveyId = .error .alreadyWithdrawn)
    ∧ (∀ (σ : SState) (caller surveyId : Nat),
        (σ.surveys surveyId).creator ≠ 0 → caller ∉ (σ.surveys surveyId).voted →
        withdrawParticipantFunds σ caller surveyId = .error .notParticipant)
    ∧ (∀ (σ : SState) (caller surveyId : Nat),
        (σ.surveys surveyId).creator ≠ 0 → caller ∈ (σ.surveys surveyId).voted →
        caller ∈ (σ.surveys surveyId).withdrawn →
        withdrawParticipantFunds σ caller surveyId = .error .alreadyWithdrawn)
    ∧ (∀ (σ σ' : SState), Reachable σ → Relation.ReflTransGen Step σ σ' →
        ∀ (p surveyId : Nat), p ∈ (σ.surveys surveyId).withdrawn →
        ∀ σ2, withdrawParticipantFunds σ' p surveyId ≠ .ok σ2) := by
  refine ⟨?succ, ?nv, ?aw, ?once⟩
  · intro σ caller surveyId h1 h2 h3 h4
    refine ⟨_, withdrawParticipantFunds_ok.mpr ⟨h1, h2, h3, h4, rfl⟩, ?bal, ?mark, ?reent⟩
    · show σ.balance = σ.balance - participantPayout (σ.surveys surveyId) + _
      have hpp : participantPayout (σ.surveys surveyId)
          = (σ.surveys surveyId).depositRequired + (σ.surveys surveyId).rewardPerResponse :=
        rfl
      omega
    · show caller ∈ (Function.update σ.surveys surveyId
        { σ.surveys surveyId with
          withdrawn := insert caller (σ.surveys surveyId).withdrawn } surveyId).withdrawn
      rw [Function.update_same]
      exact Finset.mem_insert_self caller _
    · apply withdrawParticipantFunds_already
      · show (Function.update σ.surveys surveyId
          { σ.surveys surveyId with
            withdrawn := insert caller (σ.surveys surveyId).withdrawn } surveyId).creator ≠ 0
        rw [Function.update_same]
        exact h1
      · show caller ∈ (Function.update σ.surveys surveyId
          { σ.surveys surveyId with
            withdrawn := insert caller (σ.surveys surveyId).withdrawn } surveyId).voted
        rw [Function.update_same]
        exact h2
      · show caller ∈ (Function.update σ.surveys surveyId
          { σ.surveys surveyId with
            withdrawn := insert caller (σ.surveys surveyId).withdrawn } surveyId).withdrawn
        rw [Function.update_same]
        exact Finset.mem_insert_self caller _
  · intro σ caller surveyId h1 h2
    exact withdrawParticipantFunds_notVoter h1 h2
  · intro σ caller surveyId h1 h2 h3
    exact withdrawParticipantFunds_already h1 h2 h3
  · intro σ σ' hre hsteps p surveyId hw σ2 hok
    have hw' : p ∈ (σ'.surveys surveyId).withdrawn :=
      steps_withdrawn_mono (reachable_inv hre) hsteps hw
    rw [withdrawParticipantFunds_ok] at hok
    exact hok.2.2.1 hw'

/-- C5 witness: the amended claim evaluated on `st3`: participant 2's first
withdrawal succeeds (balance 12 covers the 8 wei payout), pays exactly
deposit + reward, and the repeat call reverts with the duplicate-action
error. -/
theorem C5_witness : withdrawParticipantFunds st3 2 0 = .ok st4
    ∧ st3.balance = st4.balance + 8
    ∧ withdrawParticipantFunds st4 2 0 = .error .alreadyWithdrawn := by
  obtain ⟨σ', hok, hbal, hmark, hsecond⟩ :=
    C5_participant_withdrawal.1 st3 2 0 (by decide) (by decide) (by decide) (by decide)
  have heq : σ' = st4 := by
    have h2 : withdrawParticipantFunds st3 2 0 = .ok st4 := rfl
    rw [hok] at h2
    exact (Except.ok.inj h2)
  subst heq
  exact ⟨hok, by simpa using hbal, hsecond⟩

theorem withdrawRewardPool_intro {σ : SState} {caller surveyId : Nat}
    (h1 : (σ.surveys surveyId).creator ≠ 0)
    (h2 : caller = (σ.surveys surveyId).creator)
    (h3 : (σ.surveys surveyId).endTime ≤ σ.now)
    (h4 : (σ.surveys surveyId).rewardPool ≠ 0)
    (h5 : (σ.surveys surveyId).rewardPool - (σ.surveys surveyId).totalResponses *
      (σ.surveys surveyId).rewardPerResponse ≤ σ.balance) :
    withdrawRewardPool σ caller surveyId = .ok { σ with
      surveys := Function.update σ.surveys surveyId
        { σ.surveys surveyId with rewardPool := 0 }
      balance := σ.balance - ((σ.surveys surveyId).rewardPool -
        (σ.surveys surveyId).totalResponses * (σ.surveys surveyId).rewardPerResponse)
      events := σ.events ++ [Event.rewardPoolWithdrawn surveyId
        (σ.surveys surveyId).creator ((σ.surveys surveyId).rewardPool -
          (σ.surveys surveyId).totalResponses * (σ.surveys surveyId).rewardPerResponse)] } := by
  unfold withdrawRewardPool
  simp only []
  rw [if_neg h1, if_neg (not_not_intro h2), if_neg (Nat.not_lt.mpr h3), if_neg h4]
  have hrw : (if (σ.surveys surveyId).totalResponses * (σ.surveys surveyId).rewardPerResponse <
      (σ.surveys surveyId).rewardPool then (σ.surveys surveyId).rewardPool -
      (σ.surveys surveyId).totalResponses * (σ.surveys surveyId).rewardPerResponse else 0)
      = (σ.surveys surveyId).rewardPool - (σ.surveys surveyId).totalResponses *
        (σ.surveys surveyId).rewardPerResponse := by
    split_ifs with hlt
    · rfl
    · omega
  rw [hrw]
  split_ifs with hrem hbal
  · exact (Nat.not_lt.mpr h5 hbal).elim
  · rfl
  · have h0 : (σ.surveys surveyId).rewardPool - (σ.surveys surveyId).totalResponses *
        (σ.surveys surveyId).rewardPerResponse = 0 := by omega
    rw [h0]
    simp

theorem balOffset_step : ∀ (e : Nat) (σ1 σ2 σ2' : SState),
    BalOffset e σ1 σ2 → Step σ2 σ2' →
    ∃ σ1', Step σ1 σ1' ∧ BalOffset e σ1' σ2' := by
  intro e σ1 σ2 σ2' hR hs
  obtain ⟨hc1, hc2, hc3, hc4⟩ := hR
  cases hs with
  | create caller value question options dur dep rpr σ'' surveyId hc h =>
    obtain ⟨g1, g2, g3, g4, g5, g6, g7, g8⟩ := createSurvey_dest h
    subst g7
    refine ⟨createResult σ1 caller value question options dur dep rpr,
      Step.create σ1 caller value question options dur dep rpr _ σ1.surveyCount hc
        (createSurvey_intro g1 g2 g3 g4 g5 g6), ?_, ?_, ?_, ?_⟩
    · show σ1.surveyCount + 1 = σ2.surveyCount + 1
      omega
    · show Function.update σ1.surveys σ1.surveyCount
        (newSurvey caller value question options (σ1.now + dur) (defaultedDeposit dep) rpr)
        = Function.update σ2.surveys σ2.surveyCount
          (newSurvey caller value question options (σ2.now + dur) (defaultedDeposit dep) rpr)
      rw [hc1, hc2, hc3]
    · exact hc3
    · show σ1.balance + value = σ2.balance + value + e
      omega
  | submit caller value surveyId choice σ'' hch h =>
    rw [submitResponse_ok] at h
    obtain ⟨g1, g2, g3, g4, g5, g6⟩ := h
    subst g6
    refine ⟨submitResult σ1 caller value surveyId choice,
      Step.submit σ1 caller value surveyId choice _ hch
        (submitResponse_ok.mpr ⟨by rw [hc2]; exact g1, by rw [hc2, hc3]; exact g2,
          by rw [hc2]; exact g3, by rw [hc2]; exact g4, by rw [hc2]; exact g5, rfl⟩),
      ?_, ?_, ?_, ?_⟩
    · exact hc1
    · show Function.update σ1.surveys surveyId _ = Function.update σ2.surveys surveyId _
      rw [hc2]
    · exact hc3
    · show σ1.balance + value = σ2.balance + value + e
      omega
  | withdrawP caller surveyId σ'' h =>
    rw [withdrawParticipantFunds_ok] at h
    obtain ⟨g1, g2, g3, g4, g5⟩ := h
    subst g5
    refine ⟨_, Step.withdrawP σ1 caller surveyId _
      (withdrawParticipantFunds_ok.mpr ⟨by rw [hc2]; exact g1, by rw [hc2]; exact g2,
        by rw [hc2]; exact g3, by rw [hc2]; omega, rfl⟩), ?_, ?_, ?_, ?_⟩
    · exact hc1
    · show (withdrawMarkResult σ1 caller surveyId).surveys
        = (withdrawMarkResult σ2 caller surveyId).surveys
      unfold withdrawMarkResult
      simp only []
      rw [hc2]
    · exact hc3
    · show σ1.balance - participantPayout (σ1.surveys surveyId)
        = σ2.balance - participantPayout (σ2.surveys surveyId) + e
      rw [hc2]
      have hp : participantPayout (σ2.surveys surveyId) ≤ σ2.balance := g4
      omega
  | release caller surveyId optionIndex σ'' h =>
    rw [releaseAndRequestDecrypt_ok] at h
    obtain ⟨g1, g2, g3, g4⟩ := h
    subst g4
    refine ⟨releaseResult σ1 surveyId optionIndex,
      Step.release σ1 caller surveyId optionIndex _
        (releaseAndRequestDecrypt_ok.mpr ⟨by rw [hc2]; exact g1, by rw [hc2, hc3]; exact g2,
          by rw [hc2]; exact g3, rfl⟩), ?_, ?_, ?_, ?_⟩
    · unfold releaseResult
      simp only []
      rw [hc2]
      split_ifs <;> exact hc1
    · unfold releaseResult
      simp only []
      rw [hc2]
      split_ifs <;> rfl
    · unfold releaseResult
      simp only []
      rw [hc2]
      split_ifs <;> exact hc3
    · unfold releaseResult
      simp only []
      rw [hc2]
      split_ifs <;> exact hc4
  | store surveyId optionIndex value σ'' hv h =>
    rw [storeDecryptedVote_ok] at h
    obtain ⟨g1, g2, g3⟩ := h
    subst g3
    refine ⟨storeResult σ1 surveyId optionIndex value,
      Step.store σ1 surveyId optionIndex value _ hv
        (storeDecryptedVote_ok.mpr ⟨by rw [hc2]; exact g1, by rw [hc2]; exact g2, rfl⟩),
      ?_, ?_, ?_, ?_⟩
    · exact hc1
    · show Function.update σ1.surveys surveyId _ = Function.update σ2.surveys surveyId _
      rw [hc2]
    · exact hc3
    · exact hc4
  | withdrawR caller surveyId σ'' h =>
    obtain ⟨g1, g2, g3, g4, g5, g6⟩ := withdrawRewardPool_dest h
    subst g6
    refine ⟨_, Step.withdrawR σ1 caller surveyId _
      (withdrawRewardPool_intro (by rw [hc2]; exact g1) (by rw [hc2]; exact g2)
        (by rw [hc2, hc3]; exact g3) (by rw [hc2]; exact g4) (by rw [hc2]; omega)),
      ?_, ?_, ?_, ?_⟩
    · exact hc1
    · show Function.update σ1.surveys surveyId _ = Function.update σ2.surveys surveyId _
      rw [hc2]
    · exact hc3
    · show σ1.balance - ((σ1.surveys surveyId).rewardPool -
        (σ1.surveys surveyId).totalResponses * (σ1.surveys surveyId).rewardPerResponse)
        = σ2.balance - ((σ2.surveys surveyId).rewardPool -
          (σ2.surveys surveyId).totalResponses * (σ2.surveys surveyId).rewardPerResponse) + e
      rw [hc2]
      omega
  | receiveEth value =>
    refine ⟨{ σ1 with balance := σ1.balance + value }, Step.receiveEth σ1 value,
      hc1, hc2, hc3, ?_⟩
    show σ1.balance + value = σ2.balance + value + e
    omega
  | tick δ =>
    refine ⟨{ σ1 with now := σ1.now + δ }, Step.tick σ1 δ, hc1, hc2, ?_, hc4⟩
    show σ1.now + δ = σ2.now + δ
    omega

/-- C10: `submitResponse` accepts any attached value at or above the required
deposit, but the excess is never refunded.  The contract state recording the
vote is the same whether the participant attaches the exact deposit or more —
only the custodied balance differs by the excess — the participant's later
withdrawal pays exactly `depositRequired + rewardPerResponse` regardless, and
any step available from the smaller-balance state is simulated from the
larger-balance state while preserving the balance difference, so the excess
remains in the custodied balance forever. -/
theorem C10_excess_kept :
    (∀ (σ : SState) (caller value surveyId choice : Nat),
      (σ.surveys surveyId).creator ≠ 0 → σ.now < (σ.surveys surveyId).endTime →
      (σ.surveys surveyId).isActive = true → caller ∉ (σ.surveys surveyId).voted →
      (σ.surveys surveyId).depositRequired ≤ value →
      submitResponse σ caller value surveyId choice
        = .ok (submitResult σ caller value surveyId choice))
    ∧ (∀ (σ : SState) (caller value surveyId choice : Nat),
        (submitResult σ caller value surveyId choice).surveys
          = (submitResult σ caller ((σ.surveys surveyId).depositRequired)
              surveyId choice).surveys
        ∧ (submitResult σ caller value surveyId choice).balance = σ.balance + value)
    ∧ (∀ (σ : SState) (caller surveyId : Nat) (σ' : SState),
        withdrawParticipantFunds σ caller surveyId = .ok σ' →
        σ'.balance + ((σ.surveys surveyId).depositRequired
          + (σ.surveys surveyId).rewardPerResponse) = σ.balance)
    ∧ (∀ (e : Nat) (σ1 σ2 σ2' : SState), BalOffset e σ1 σ2 → Step σ2 σ2' →
        ∃ σ1', Step σ1 σ1' ∧ BalOffset e σ1' σ2') := by
  refine ⟨?accept, ?indep, ?payout, ?sim⟩
  · intro σ caller value surveyId choice h1 h2 h3 h4 h5
    exact submitResponse_ok.mpr ⟨h1, h2, h3, h4, h5, rfl⟩
  · intro σ caller value surveyId choice
    exact ⟨rfl, rfl⟩
  · intro σ caller surveyId σ' h
    rw [withdrawParticipantFunds_ok] at h
    obtain ⟨h1, h2, h3, h4, h5⟩ := h
    subst h5
    show σ.balance - participantPayout (σ.surveys surveyId) + _ = σ.balance
    have hp : participantPayout (σ.surveys surveyId)
        = (σ.surveys surveyId).depositRequired + (σ.surveys surveyId).rewardPerResponse := rfl
    omega
  · exact balOffset_step

/-- C10 witness: on `st1` (deposit 1 wei) participant 2 attaches 5 wei; the
vote succeeds, the resulting survey bookkeeping is identical to the
exact-deposit vote, and the whole 5 wei lands in the custodied balance. -/
theorem C10_witness : submitResponse st1 2 5 0 0 = .ok (submitResult st1 2 5 0 0)
    ∧ (submitResult st1 2 5 0 0).surveys = (submitResult st1 2 1 0 0).surveys
    ∧ (submitResult st1 2 5 0 0).balance = st1.balance + 5 := by
  refine ⟨C10_excess_kept.1 st1 2 5 0 0 (by decide) (by decide) (by decide)
    (by decide) (by decide), ?w2, (C10_excess_kept.2.1 st1 2 5 0 0).2⟩
  exact (C10_excess_kept.2.1 st1 2 5 0 0).1

end AnonymousSurvey
